import Mathlib

/-!
# ctrl_serial: debounce filter and LED blink engine

A shallow embedding of `serIn_to_stdout`, `stdin_to_serOut` and `init_settings`
of `src/ctrl_serial.c`, of the option access of `src/util.c` and of
`handle_input` of `src/ctrl_usbmouse.c`.  The C functions keep their state in
`static` locals; here that state is an explicit record passed in and returned.  `int` variables are
`Int`, `unsigned char` values and the modem status word are `Nat`.  The counters
only grow while they are below a threshold of at most 1000, so no `int`
arithmetic of the two functions wraps around.  The results of the system calls
(`read`, `poll`/`write`, `ioctl`) are inputs of the model.
-/

namespace CtrlSerial

/-! ## Configuration and platform constants -/

/-- The modem-line bit masks of `<sys/ioctl.h>` that ctrl_serial.c uses
(`TIOCM_RNG`, `TIOCM_CTS`, ...).  They are platform constants, not part of the
repository, so the embedding takes them as a parameter. -/
structure Tiocm where
  RNG : Nat
  CTS : Nat
  DSR : Nat
  CD : Nat
  DTR : Nat
  RTS : Nat
  deriving DecidableEq

/-- The values of the masks on Linux (`asm-generic/termios.h`). -/
def linuxTiocm : Tiocm :=
  { RNG := 0x080, CTS := 0x020, DSR := 0x100, CD := 0x040, DTR := 0x002, RTS := 0x004 }

/-- The fields of `struct Settings` (ctrl_serial.c:39-47) that the two tick
functions read: `loopsOut` is the `malloc(7*sizeof(int))` table of blink
thresholds for the modes 2..8, `loopsIn` the debounce threshold. -/
structure Settings where
  loopsOut : Fin 7 → Int
  loopsIn : Int
  testmode : Bool

/-! ## `serIn_to_stdout` (ctrl_serial.c:187-232) -/

/-- The `static` locals `old`, `oldSent` and `cnt` of `serIn_to_stdout`. -/
structure SerInState where
  old : Nat
  oldSent : Nat
  cnt : Int
  deriving DecidableEq

/-- The initial values of the statics (ctrl_serial.c:190-192). -/
def serInInit : SerInState := { old := 0, oldSent := 0, cnt := 0 }

/-- What one call of `serIn_to_stdout` does: its return value, the byte it wrote
to stdout (or printed in test mode), if any, and the statics afterwards. -/
structure SerInResult where
  ret : Int
  out : Option Nat
  st : SerInState
  deriving DecidableEq

/-- The array `pins` (ctrl_serial.c:189). -/
def pins (K : Tiocm) : List Nat := [K.RNG, K.CTS, K.DSR, K.CD]

/-- The sample `val` that `serIn_to_stdout` computes from the modem status word
(ctrl_serial.c:195-204): bit `i` is set when `data & pins[i]` is non-zero, and the
low four bits are inverted when `data & TIOCM_DTR` is non-zero. -/
def serIn_val (K : Tiocm) (data : Nat) : Nat :=
  let val := (List.range 4).foldl
    (fun val i => if data &&& (pins K).getD i 0 ≠ 0 then val ||| (1 <<< i) else val) 0
  val ^^^ (if data &&& K.DTR ≠ 0 then 0x0F else 0)

/-- One call of `serIn_to_stdout` (ctrl_serial.c:187-232).  `wrOk` says whether
the `poll`/`write` of the byte to stdout succeeds; it is only consulted outside
test mode, where a failure makes the function return 0 before `oldSent` is
updated. -/
def serIn_to_stdout (K : Tiocm) (cfg : Settings) (wrOk : Bool) (data : Nat)
    (s : SerInState) : SerInResult :=
  let val := serIn_val K data
  if val = s.old then
    let d := s.cnt + 1 - cfg.loopsIn
    let cnt := if d ≤ 0 then s.cnt + 1 else s.cnt
    if d = 0 ∧ s.oldSent ≠ val then
      if !cfg.testmode && !wrOk then
        { ret := 0, out := none, st := { s with cnt := cnt } }
      else
        { ret := 1, out := some val, st := { s with cnt := cnt, oldSent := val } }
    else
      { ret := 1, out := none, st := { s with cnt := cnt } }
  else
    { ret := 1, out := none, st := { s with cnt := 0, old := val } }

/-- The statics after the main loop has called `serIn_to_stdout` on the status
words `ds` in turn, every write to stdout succeeding (a failed write makes
`main` exit, ctrl_serial.c:402-407). -/
def serIn_run (K : Tiocm) (cfg : Settings) : List Nat → SerInState → SerInState
  | [], s => s
  | d :: ds, s => serIn_run K cfg ds (serIn_to_stdout K cfg true d s).st

/-- The per-tick emissions of the same run: entry `t` is the byte written on
tick `t`, or `none` when that tick wrote nothing. -/
def serIn_outs (K : Tiocm) (cfg : Settings) : List Nat → SerInState → List (Option Nat)
  | [], _ => []
  | d :: ds, s =>
    (serIn_to_stdout K cfg true d s).out :: serIn_outs K cfg ds (serIn_to_stdout K cfg true d s).st

/-! ## `stdin_to_serOut` (ctrl_serial.c:235-379) -/

/-- The `static` locals of `stdin_to_serOut` (ctrl_serial.c:237-241); the two
entries of each array are separate fields, suffix 0 for LED 0 and 1 for LED 1. -/
structure SerOutState where
  firstRun : Bool
  serOutStat0 : Int
  serOutStat1 : Int
  serOutStatOld0 : Int
  serOutStatOld1 : Int
  serOutMode0 : Int
  serOutMode1 : Int
  cntOut0 : Int
  cntOut1 : Int
  deriving DecidableEq

/-- The initial values of the statics (ctrl_serial.c:237-241). -/
def serOutInit : SerOutState :=
  { firstRun := true, serOutStat0 := 0, serOutStat1 := 0, serOutStatOld0 := 0,
    serOutStatOld1 := 0, serOutMode0 := 0, serOutMode1 := 0, cntOut0 := 0, cntOut1 := 0 }

/-- A write to the serial port: `set_serial_data(data)` (the TIOCMSET ioctl
that drives LED 0 through DTR/RTS) or `set_txd(high)` (the break ioctl that
drives LED 1). -/
inductive OutAct where
  | setSerial (data : Nat)
  | setTxd (high : Int)
  deriving DecidableEq

/-- What one call of `stdin_to_serOut` does: its return value, the writes to
the serial port in order, and the statics afterwards. -/
structure SerOutResult where
  ret : Int
  out : List OutAct
  st : SerOutState
  deriving DecidableEq

/-- The textual front-end of test mode for a non-empty read (ctrl_serial.c:273-301):
a read of 2 or 3 bytes that ends in a line feed and whose other bytes are all
ASCII digits becomes the single byte `tmp`; any other read is ignored. -/
def serOut_testmode (buf : List Nat) : List Nat :=
  let nbIn := buf.length
  if 2 ≤ nbIn ∧ nbIn ≤ 3 ∧ buf.getD (nbIn - 1) 0 = 10 then
    let r := (buf.take (nbIn - 1)).foldl
      (fun (r : Nat × Bool) c =>
        if 48 ≤ c ∧ c ≤ 57 then ((10 * r.1 + (c - 48)) % 256, r.2) else (r.1, true))
      (0, false)
    if !r.2 then [r.1] else []
  else []

/-- The command bytes `buf[0..nbIn-1]` that reach the mode loop after a
successful read of `buf` (ctrl_serial.c:265-301). -/
def serOut_cmds (cfg : Settings) (buf : List Nat) : List Nat :=
  if 0 < buf.length ∧ cfg.testmode then serOut_testmode buf else buf

/-- One round of the mode loop for the command byte `b` (ctrl_serial.c:310-319):
a decoded mode of 9 leaves the stored mode alone. -/
def serOut_setMode (s : SerOutState) (b : Nat) : SerOutState :=
  let newMode0 : Int := ((b % 10 : Nat) : Int)
  let newMode1 : Int := (((b / 10) % 10 : Nat) : Int)
  let s := if newMode0 ≠ 9 then { s with serOutMode0 := newMode0 } else s
  if newMode1 ≠ 9 then { s with serOutMode1 := newMode1 } else s

/-- The mode loop over all command bytes of the tick (ctrl_serial.c:306-320). -/
def serOut_modes (cmds : List Nat) (s : SerOutState) : SerOutState :=
  cmds.foldl serOut_setMode s

/-- The synchronisation of two LEDs in the same mode (ctrl_serial.c:322-330). -/
def serOut_sync (s : SerOutState) : SerOutState :=
  if s.serOutMode0 = s.serOutMode1 then
    let s := { s with serOutStat0 := s.serOutStat1 }
    if s.cntOut0 > s.cntOut1 then { s with cntOut0 := s.cntOut1 }
    else { s with cntOut1 := s.cntOut0 }
  else s

/-- The body of the evaluation loop for one LED (ctrl_serial.c:334-351), on
its mode, counter and level; it returns the new counter and level.  The
index `mode - 2` of the table read is in range by the guard. -/
def serOut_led (loopsOut : Fin 7 → Int) (mode cnt stat : Int) : Int × Int :=
  let r : Int × Int := if mode = 0 then (0, 0) else (cnt, stat)
  let r : Int × Int := if mode = 1 then (0, 1) else r
  if h : 2 ≤ mode ∧ mode ≤ 8 then
    if r.1 < loopsOut ⟨(mode - 2).toNat, by omega⟩ then (r.1 + 1, r.2)
    else (0, 1 - r.2)
  else r

/-- The evaluation loop over both LEDs (ctrl_serial.c:332-352). -/
def serOut_eval (loopsOut : Fin 7 → Int) (s : SerOutState) : SerOutState :=
  let r0 := serOut_led loopsOut s.serOutMode0 s.cntOut0 s.serOutStat0
  let r1 := serOut_led loopsOut s.serOutMode1 s.cntOut1 s.serOutStat1
  { s with cntOut0 := r0.1, serOutStat0 := r0.2, cntOut1 := r1.1, serOutStat1 := r1.2 }

/-- The output loop (ctrl_serial.c:354-378): a LED whose level differs from the
level last written, or every LED on the first run, is written to the port.
`okSer` and `okTxd` say whether the two ioctls succeed. -/
def serOut_emit (K : Tiocm) (okSer okTxd : Bool) (data : Nat) (s : SerOutState) :
    SerOutResult :=
  let e0 := s.firstRun || s.serOutStat0 ≠ s.serOutStatOld0
  let e1 := s.firstRun || s.serOutStat1 ≠ s.serOutStatOld1
  let data0 :=
    if s.serOutStat0 ≠ 0 then Nat.ldiff (data ||| K.DTR) K.RTS
    else (Nat.ldiff data K.DTR) ||| K.RTS
  let res : Int := if e0 && !okSer then 0 else 1
  let res : Int := if e1 && !okTxd then 0 else res
  { ret := res,
    out := (if e0 then [OutAct.setSerial data0] else [])
      ++ (if e1 then [OutAct.setTxd s.serOutStat1] else []),
    st := { s with
      serOutStatOld0 := if e0 then s.serOutStat0 else s.serOutStatOld0,
      serOutStatOld1 := if e1 then s.serOutStat1 else s.serOutStatOld1,
      firstRun := false } }

/-- One call of `stdin_to_serOut` (ctrl_serial.c:235-379).  `rd` is the outcome
of the `poll`/`read` of stdin: `none` when `read` fails (`nbIn < 0`), otherwise
the bytes read, `[]` when nothing was available. -/
def stdin_to_serOut (K : Tiocm) (cfg : Settings) (rd : Option (List Nat))
    (okSer okTxd : Bool) (data : Nat) (s : SerOutState) : SerOutResult :=
  match rd with
  | none => { ret := 0, out := [], st := s }
  | some buf =>
    serOut_emit K okSer okTxd data
      (serOut_eval cfg.loopsOut (serOut_sync (serOut_modes (serOut_cmds cfg buf) s)))

/-- The statics after the main loop has called `stdin_to_serOut` once for each
entry of `ticks`, an entry being the bytes read from stdin on that tick and the
modem status word; every read and every ioctl succeeds (a failure makes `main`
exit, ctrl_serial.c:402-407). -/
def serOut_run (K : Tiocm) (cfg : Settings) : List (List Nat × Nat) → SerOutState → SerOutState
  | [], s => s
  | t :: ts, s => serOut_run K cfg ts (stdin_to_serOut K cfg (some t.1) true true t.2 s).st

/-- The body of the evaluation loop for one LED (ctrl_serial.c:334-351) once
more, with `settings->loopsOut` as the array it is in C and the read
`loopsOut[serOutMode[i]-2]` bounds-checked: the result is `none` when the index
is negative or not below the length of the array. -/
def serOut_led_checked (loopsOut : List Int) (mode cnt stat : Int) : Option (Int × Int) :=
  let r : Int × Int := if mode = 0 then (0, 0) else (cnt, stat)
  let r : Int × Int := if mode = 1 then (0, 1) else r
  if 2 ≤ mode ∧ mode ≤ 8 then
    if mode - 2 < 0 then none
    else
      match loopsOut[(mode - 2).toNat]? with
      | none => none
      | some t => if r.1 < t then some (r.1 + 1, r.2) else some (0, 1 - r.2)
  else some r

/-- The states the statics of `stdin_to_serOut` can be in: the initial values,
and the statics after a call from such a state, whatever the read returns and
whether the ioctls succeed. -/
inductive SerOutReach (K : Tiocm) (cfg : Settings) : SerOutState → Prop where
  | init : SerOutReach K cfg serOutInit
  | tick (s : SerOutState) (rd : Option (List Nat)) (okSer okTxd : Bool) (data : Nat) :
      SerOutReach K cfg s → SerOutReach K cfg (stdin_to_serOut K cfg rd okSer okTxd data s).st

/-! ## Option access (util.c:247-307, 352-360) and `init_settings` (ctrl_serial.c:105-142) -/

/-- A model of `strtol(str, &endptr, 10)` of the C library with a 64-bit
`long`: leading white space, an optional sign and decimal digits are read; the
result is the value, clamped to the range of `long`, and the characters from
`endptr` on.  Without any digit the value is 0 and `endptr` is `str`.  The
functions of util.c below take `strtol` as a parameter; this model is used for
concrete inputs. -/
def strtol (str : String) : Int × List Char :=
  let cs := str.toList
  let body := cs.dropWhile (fun c => c.toNat = 32 ∨ (9 ≤ c.toNat ∧ c.toNat ≤ 13))
  let sgn : Bool × List Char :=
    match body with
    | '-' :: t => (true, t)
    | '+' :: t => (false, t)
    | _ => (false, body)
  let digits := sgn.2.takeWhile (fun c => 48 ≤ c.toNat ∧ c.toNat ≤ 57)
  let rest := sgn.2.dropWhile (fun c => 48 ≤ c.toNat ∧ c.toNat ≤ 57)
  if digits = [] then (0, cs)
  else
    let mag : Nat := digits.foldl (fun n c => 10 * n + (c.toNat - 48)) 0
    let v : Int := if sgn.1 then -(mag : Int) else (mag : Int)
    (max (-(2 ^ 63)) (min v (2 ^ 63 - 1)), rest)

/-- The conversion `(int)lval` of a `long` to a 32-bit `int`. -/
def longToInt (lval : Int) : Int := (lval + 2 ^ 31) % 2 ^ 32 - 2 ^ 31

/-- The function `str_to_int` (util.c:352-360): `none` is the return value 0,
`some val` the return value 1 with `*intPtr = val`.  `strtolFn` is the
`strtol` of the C library. -/
def str_to_int (strtolFn : String → Int × List Char) (str : String) : Option Int :=
  let lval := (strtolFn str).1
  let val := longToInt lval
  if (strtolFn str).2 ≠ [] ∨ val ≠ lval then none else some val

/-- The function `get_opt_str` (util.c:247-259) on the options collected by
`init_util`, a list of keys with their values: the value of the first option
with the key, `none` for the return value 0. -/
def get_opt_str (opts : List (Char × String)) (key : Char) : Option String :=
  (opts.find? (fun o => o.1 = key)).map (fun o => o.2)

/-- The function `get_opt_int` (util.c:262-272). -/
def get_opt_int (strtolFn : String → Int × List Char) (opts : List (Char × String))
    (key : Char) : Option Int :=
  match get_opt_str opts key with
  | none => none
  | some str => str_to_int strtolFn str

/-- The function `get_opt_int_default` (util.c:275-290): the default when the
option is absent, failure when its value is not an integer. -/
def get_opt_int_default (strtolFn : String → Int × List Char) (opts : List (Char × String))
    (key : Char) (dflt : Int) : Option Int :=
  match get_opt_str opts key with
  | none => some dflt
  | some str => str_to_int strtolFn str

/-- The function `get_opt_int_between` (util.c:293-307): `val` is the default
whenever `get_opt_int` fails, and the result is `none` (return value 0) when
`val` is outside `[lo..hi]`. -/
def get_opt_int_between (strtolFn : String → Int × List Char) (opts : List (Char × String))
    (key : Char) (lo hi dflt : Int) : Option Int :=
  let val :=
    match get_opt_int strtolFn opts key with
    | none => dflt
    | some v => v
  if val < lo ∨ val > hi then none else some val

/-- The key `'2' + i` of the option for blink mode `i + 2` (ctrl_serial.c:120). -/
def blinkKey (i : Fin 7) : Char := Char.ofNat (50 + i.val)

/-- One round of the loop of `init_settings` that fills `loopsOut`
(ctrl_serial.c:119-121).  `dflt` is the table of the defaults
`round(5 * pow(20., 1.*(6-i)/6))`, floating-point values taken as given. -/
def init_loopsOut (strtolFn : String → Int × List Char) (dflt : Fin 7 → Int)
    (opts : List (Char × String)) (i : Fin 7) : Option Int :=
  get_opt_int_between strtolFn opts (blinkKey i) 0 1000 (dflt i)

/-- What `init_settings` of ctrl_serial.c leaves in `struct Settings`. -/
structure SerialSettings where
  cfg : Settings
  serPortPath : String
  delay : Int

/-- The function `init_settings` of ctrl_serial.c (ctrl_serial.c:105-142), the
two `malloc` calls succeeding: `none` is the return value 0, after which `main`
exits before the first tick. -/
def init_settings (strtolFn : String → Int × List Char) (dflt : Fin 7 → Int)
    (opts : List (Char × String)) : Option SerialSettings :=
  if (List.finRange 7).all (fun i => (init_loopsOut strtolFn dflt opts i).isSome) then
    match get_opt_str opts 'p' with
    | none => none
    | some path =>
      match get_opt_int_between strtolFn opts 'd' 1 1000 10,
            get_opt_int_between strtolFn opts 'b' 1 1000 4 with
      | some delay, some loopsIn =>
        some { cfg := { loopsOut := fun i => (init_loopsOut strtolFn dflt opts i).getD 0,
                        loopsIn := loopsIn,
                        testmode := (get_opt_str opts 't').isSome },
               serPortPath := path, delay := delay }
      | _, _ => none
  else none

/-! ## `handle_input` (ctrl_usbmouse.c:218-284) -/

/-- The fields of `struct Settings` of ctrl_usbmouse.c that `handle_input` reads. -/
structure MouseSettings where
  buttonIdx : Int
  wheelIdx : Int
  wheelZero : Bool
  testMode : Bool
  byteNb : Int

/-- The byte `value` that `handle_input` computes from a packet `buf`
(ctrl_usbmouse.c:245-259).  `init_settings` of ctrl_usbmouse.c has checked that
both indices are below `byteNb`, the length of `buf`. -/
def mouse_value (cfg : MouseSettings) (buf : List Nat) : Nat :=
  let value := if cfg.buttonIdx ≥ 0 then buf.getD cfg.buttonIdx.toNat 0 else 0
  if cfg.wheelIdx ≥ 0 then
    let value := value &&& 0x3f
    if buf.getD cfg.wheelIdx.toNat 0 > 0 then
      value ||| (if buf.getD cfg.wheelIdx.toNat 0 > 127 then 1 <<< 6 else 1 <<< 7)
    else value
  else value

/-- The variable `valueOld` after the same lines: it is set to 0xFF when the
wheel byte is not 0 and option `-z` is not given (ctrl_usbmouse.c:254-258). -/
def mouse_valueOld (cfg : MouseSettings) (buf : List Nat) (valueOld : Nat) : Nat :=
  if cfg.wheelIdx ≥ 0 ∧ buf.getD cfg.wheelIdx.toNat 0 > 0 ∧ cfg.wheelZero = false then 0xFF
  else valueOld

/-- One round of the loop of `handle_input` (ctrl_usbmouse.c:225-282).  `xfer`
is the outcome of `libusb_interrupt_transfer`: `none` when it fails, otherwise
the number of bytes transferred and the buffer.  The result is the byte
written to stdout (printed after `send:` in test mode), if any, and the new
`valueOld`. -/
def handle_input (cfg : MouseSettings) (xfer : Option (Int × List Nat)) (valueOld : Nat) :
    Option Nat × Nat :=
  match xfer with
  | none => (none, valueOld)
  | some (transferred, buf) =>
    if transferred ≠ cfg.byteNb then (none, valueOld)
    else
      let value := mouse_value cfg buf
      (if value ≠ mouse_valueOld cfg buf valueOld then some value else none, value)

/-! ## Notions of the specification and example inputs -/

/-- The byte emitted last in a trace of per-tick emissions, 0 when the trace
has no emission yet (the initial value of `oldSent`). -/
def lastEmitted (outs : List (Option Nat)) : Nat :=
  outs.foldl (fun last o => o.getD last) 0

/-- The last command byte of `cmds` that changes LED 0, read from the spec:
the last byte whose value modulo 10 is not 9. -/
def lastCmd0 (cmds : List Nat) : Option Nat :=
  cmds.reverse.find? (fun b => b % 10 ≠ 9)

/-- The last command byte of `cmds` that changes LED 1: the last byte whose
tens digit `(b / 10) % 10` is not 9. -/
def lastCmd1 (cmds : List Nat) : Option Nat :=
  cmds.reverse.find? (fun b => (b / 10) % 10 ≠ 9)

/-- The history invariant of the debounce statics after the status words `hist`:
the counter is not negative, and either no byte was sent and `old` is still 0,
or the last `cnt + 1` words of the history all carry the sample `old`. -/
def SerInInv (K : Tiocm) (hist : List Nat) (s : SerInState) : Prop :=
  0 ≤ s.cnt ∧
  ((s.old = 0 ∧ s.oldSent = 0) ∨
   ∃ front back, hist = front ++ back ∧ s.cnt + 1 ≤ (back.length : Int) ∧
     ∀ e ∈ back, serIn_val K e = s.old)

/-- The settings of a start without options other than the port
(ctrl_serial.c:118-127): `loopsOut[i] = round(5 * pow(20, (6-i)/6))`, that is
100, 61, 37, 22, 14, 8, 5, and `loopsIn = 4`, test mode off. -/
def defaultSettings : Settings :=
  { loopsOut := fun i => [100, 61, 37, 22, 14, 8, 5].getD i.val 0, loopsIn := 4,
    testmode := false }

/-- The statics of `stdin_to_serOut` with LED 0 in blink mode 3 at counter 2 and
LED 1 off at counter 0. -/
def mode3Counter2 : SerOutState :=
  { serOutInit with serOutMode0 := 3, cntOut0 := 2 }

/-- The statics of `stdin_to_serOut` with LED 0 in blink mode 8, counter 0,
level 0, and LED 1 off. -/
def blink8 : SerOutState :=
  { serOutInit with serOutMode0 := 8 }

/-- The data word that `stdin_to_serOut` passes to `set_serial_data` for the
level `stat` of LED 0 (ctrl_serial.c:361-367): DTR set and RTS cleared for a
level other than 0, DTR cleared and RTS set for the level 0. -/
def led0Word (K : Tiocm) (data : Nat) (stat : Int) : Nat :=
  if stat ≠ 0 then Nat.ldiff (data ||| K.DTR) K.RTS else Nat.ldiff data K.DTR ||| K.RTS

/-- The reads that the textual front-end of test mode accepts, in the words of
the claim: 2 or 3 bytes, the last a line feed, every byte before it an ASCII
digit. -/
def testmodeAccepts (buf : List Nat) : Prop :=
  (buf.length = 2 ∨ buf.length = 3) ∧ buf.getLast? = some 10 ∧
    ∀ c ∈ buf.dropLast, 48 ≤ c ∧ c ≤ 57

/-- The decimal number written by a list of ASCII digits. -/
def decimalValue (digits : List Nat) : Nat :=
  digits.foldl (fun n c => 10 * n + (c - 48)) 0

/-- The options of `ctrl_serial -p /dev/ttyS0 -2 0`. -/
def optsBlinkZero : List (Char × String) := [('p', "/dev/ttyS0"), ('2', "0")]

/-- The options of `ctrl_serial -p /dev/ttyS0 -2 1001`. -/
def optsBlinkHigh : List (Char × String) := [('p', "/dev/ttyS0"), ('2', "1001")]

/-- The options of `ctrl_serial -p /dev/ttyS0 -b abc`. -/
def optsMalformed : List (Char × String) := [('p', "/dev/ttyS0"), ('b', "abc")]

/-- The settings of ctrl_usbmouse without options other than the device id, for
a mouse with packets of 4 bytes (ctrl_usbmouse.c:360-364). -/
def defaultMouse : MouseSettings :=
  { buttonIdx := 0, wheelIdx := 3, wheelZero := false, testMode := false, byteNb := 4 }

/-- The sample of `serIn_to_stdout` as a function of the states of the five
modem lines: the bits 0..3 for RNG, CTS, DSR and CD, inverted when DTR is set. -/
def lineBits (rng cts dsr cd dtr : Bool) : Nat :=
  ((((if rng then 1 else 0) ||| (if cts then 2 else 0)) ||| (if dsr then 4 else 0))
    ||| (if cd then 8 else 0)) ^^^ (if dtr then 0x0F else 0)

/-- The default settings with option `-t`: test mode. -/
def testSettings : Settings :=
  { defaultSettings with testmode := true }

/-! ## Theorems about `serIn_to_stdout` -/

theorem serIn_step_change (K : Tiocm) (cfg : Settings) (w : Bool) (d : Nat) (s : SerInState)
    (h : serIn_val K d ≠ s.old) :
    serIn_to_stdout K cfg w d s
      = { ret := 1, out := none, st := { s with cnt := 0, old := serIn_val K d } } := by
  simp [serIn_to_stdout, h]

theorem serIn_step_wait (K : Tiocm) (cfg : Settings) (w : Bool) (d : Nat) (s : SerInState)
    (h : serIn_val K d = s.old) (hc : s.cnt + 1 < cfg.loopsIn) :
    serIn_to_stdout K cfg w d s
      = { ret := 1, out := none, st := { s with cnt := s.cnt + 1 } } := by
  have h1 : s.cnt + 1 - cfg.loopsIn ≤ 0 := by omega
  have h2 : ¬ (s.cnt + 1 - cfg.loopsIn = 0) := by omega
  simp [serIn_to_stdout, h, h1, h2]

theorem serIn_step_emit (K : Tiocm) (cfg : Settings) (d : Nat) (s : SerInState)
    (h : serIn_val K d = s.old) (hc : s.cnt + 1 = cfg.loopsIn) (hs : s.oldSent ≠ s.old) :
    serIn_to_stdout K cfg true d s
      = { ret := 1, out := some s.old, st := { s with cnt := s.cnt + 1, oldSent := s.old } } := by
  have h1 : s.cnt + 1 - cfg.loopsIn = 0 := by omega
  simp [serIn_to_stdout, h, h1, hs]

/-- A tick that writes a byte: the sample equals `old`, the counter is one below
the threshold, the sample differs from `oldSent`, and the byte is the sample. -/
theorem serIn_emit_cond (K : Tiocm) (cfg : Settings) (w : Bool) (d : Nat) (s : SerInState)
    (h : (serIn_to_stdout K cfg w d s).out ≠ none) :
    serIn_val K d = s.old ∧ s.cnt + 1 = cfg.loopsIn ∧ s.oldSent ≠ serIn_val K d ∧
    (serIn_to_stdout K cfg w d s).out = some (serIn_val K d) := by
  unfold serIn_to_stdout at h ⊢
  simp only [] at h ⊢
  (split_ifs at h ⊢ <;> simp_all); omega

theorem serIn_step_old (K : Tiocm) (cfg : Settings) (w : Bool) (d : Nat) (s : SerInState) :
    (serIn_to_stdout K cfg w d s).st.old = serIn_val K d := by
  unfold serIn_to_stdout
  simp only []
  split_ifs <;> simp_all

theorem serIn_step_oldSent (K : Tiocm) (cfg : Settings) (d : Nat) (s : SerInState) :
    (serIn_to_stdout K cfg true d s).st.oldSent
      = (serIn_to_stdout K cfg true d s).out.getD s.oldSent := by
  unfold serIn_to_stdout
  simp only []
  split_ifs <;> simp_all

theorem serIn_run_append (K : Tiocm) (cfg : Settings) (a b : List Nat) (s : SerInState) :
    serIn_run K cfg (a ++ b) s = serIn_run K cfg b (serIn_run K cfg a s) := by
  induction a generalizing s with
  | nil => rfl
  | cons d a ih => simp [serIn_run, ih]

theorem serIn_run_oldSent (K : Tiocm) (cfg : Settings) (ds : List Nat) (s : SerInState) :
    (serIn_run K cfg ds s).oldSent
      = (serIn_outs K cfg ds s).foldl (fun last o => o.getD last) s.oldSent := by
  induction ds generalizing s with
  | nil => rfl
  | cons d ds ih => simp only [serIn_run, serIn_outs, List.foldl_cons, ih, serIn_step_oldSent]

/-- Holding the sample `v` for `k + 1` ticks from a state that already has
`old = v`, has not sent `v` and is `k + 1` ticks short of the threshold: the
last of the ticks writes `v`, the others write nothing. -/
theorem serIn_hold (K : Tiocm) (cfg : Settings) (v : Nat) :
    ∀ (k : Nat) (ds : List Nat) (s : SerInState), ds.length = k + 1 →
      (∀ d ∈ ds, serIn_val K d = v) → s.old = v → s.oldSent ≠ v →
      s.cnt + 1 + (k : Int) = cfg.loopsIn →
      serIn_outs K cfg ds s = List.replicate k none ++ [some v] := by
  intro k
  induction k with
  | zero =>
    intro ds s hlen hv hold hsent hc
    match ds, hlen with
    | [d], _ =>
      have hd : serIn_val K d = s.old := by rw [hold]; exact hv d (by simp)
      have hc' : s.cnt + 1 = cfg.loopsIn := by simpa using hc
      simp [serIn_outs, serIn_step_emit K cfg d s hd hc' (by rw [hold]; exact hsent), hold]
  | succ k ih =>
    intro ds s hlen hv hold hsent hc
    match ds, hlen with
    | d :: ds, hlen =>
      have hd : serIn_val K d = s.old := by rw [hold]; exact hv d (by simp)
      have hc' : s.cnt + 1 < cfg.loopsIn := by push_cast at hc; omega
      have hlen' : ds.length = k + 1 := by simpa using hlen
      simp only [serIn_outs, serIn_step_wait K cfg true d s hd hc', List.replicate_succ,
        List.cons_append]
      congr 1
      refine ih ds _ hlen' (fun e he => hv e (by simp [he])) hold hsent ?_
      simp only []
      push_cast at hc
      omega

/-- Ticks that feed the byte sent last write nothing. -/
theorem serIn_quiet (K : Tiocm) (cfg : Settings) (v : Nat) (post : List Nat)
    (hv : ∀ e ∈ post, serIn_val K e = v) (s : SerInState) (hs : s.oldSent = v) :
    serIn_outs K cfg post s = List.replicate post.length none := by
  induction post generalizing s with
  | nil => rfl
  | cons d post ih =>
    have hd : serIn_val K d = s.oldSent := by rw [hs]; exact hv d (by simp)
    have hout : (serIn_to_stdout K cfg true d s).out = none := by
      by_contra hne
      exact (serIn_emit_cond K cfg true d s hne).2.2.1 hd.symm
    have hsent : (serIn_to_stdout K cfg true d s).st.oldSent = v := by
      rw [serIn_step_oldSent, hout]; exact hs
    simp only [serIn_outs, hout, List.length_cons, List.replicate_succ]
    congr 1
    exact ih (fun e he => hv e (by simp [he])) _ hsent

theorem serInInv_step (K : Tiocm) (cfg : Settings) (hist : List Nat) (d : Nat) (s : SerInState)
    (h : SerInInv K hist s) :
    SerInInv K (hist ++ [d]) (serIn_to_stdout K cfg true d s).st := by
  obtain ⟨h0, h⟩ := h
  by_cases hd : serIn_val K d = s.old
  · have hcnt : 0 ≤ (serIn_to_stdout K cfg true d s).st.cnt ∧
        (serIn_to_stdout K cfg true d s).st.cnt ≤ s.cnt + 1 := by
      unfold serIn_to_stdout
      simp only []
      split_ifs <;> simp_all <;> omega
    have hsent : s.old = s.oldSent →
        (serIn_to_stdout K cfg true d s).st.oldSent = s.oldSent := by
      intro he
      unfold serIn_to_stdout
      simp only []
      split_ifs <;> simp_all
    have hold := serIn_step_old K cfg true d s
    refine ⟨hcnt.1, ?_⟩
    rcases h with ⟨ho, hs⟩ | ⟨front, back, hpre, hlen, hall⟩
    · left
      refine ⟨by rw [hold, hd, ho], ?_⟩
      rw [hsent (by rw [ho, hs]), hs]
    · right
      refine ⟨front, back ++ [d], by simp [hpre], ?_, ?_⟩
      · simp only [List.length_append, List.length_singleton]
        push_cast
        omega
      · intro e he
        rw [hold]
        rcases List.mem_append.1 he with he | he
        · rw [hall e he, hd]
        · simp at he
          rw [he]
  · rw [serIn_step_change K cfg true d s hd]
    refine ⟨le_refl _, Or.inr ⟨hist, [d], rfl, by simp, ?_⟩⟩
    intro e he
    simp at he
    simp [he]

theorem serInInv_run (K : Tiocm) (cfg : Settings) (hist : List Nat) :
    SerInInv K hist (serIn_run K cfg hist serInInit) := by
  induction hist using List.reverseRecOn with
  | nil => exact ⟨le_refl _, Or.inl ⟨rfl, rfl⟩⟩
  | append_singleton hist d ih =>
    rw [serIn_run_append]
    exact serInInv_step K cfg hist d _ ih

/-- Claim C1, as amended: for every debounce threshold `N ≥ 1` and every
debounce state whose last raw sample and last sent byte both differ from `v`,
if the raw sample changes to `v` and is held for `N` further ticks, so that `v`
has been observed `N + 1` consecutive times (the tick of the change being the
first), then `serIn_to_stdout` emits exactly once during those `N + 1` ticks, on
the last of them, and the emitted byte is `v`. -/
theorem debounce_stabilization (K : Tiocm) (cfg : Settings) (N : Nat) (hN : 1 ≤ N)
    (hcfg : cfg.loopsIn = N) (s : SerInState) (v : Nat) (ds : List Nat)
    (hlen : ds.length = N + 1) (hv : ∀ d ∈ ds, serIn_val K d = v)
    (hold : s.old ≠ v) (hsent : s.oldSent ≠ v) :
    serIn_outs K cfg ds s = List.replicate N none ++ [some v] := by
  match ds, hlen with
  | d :: ds, hlen =>
    have hd : serIn_val K d ≠ s.old := by rw [hv d (by simp)]; exact fun h => hold h.symm
    obtain ⟨k, rfl⟩ : ∃ k, N = k + 1 := ⟨N - 1, by omega⟩
    have hlen' : ds.length = k + 1 := by simpa using hlen
    simp only [serIn_outs, serIn_step_change K cfg true d s hd, List.replicate_succ,
      List.cons_append]
    congr 1
    apply serIn_hold K cfg v k ds _ hlen' (fun e he => hv e (by simp [he]))
    · simp [hv d (by simp)]
    · exact hsent
    · simp only []; rw [hcfg]; push_cast; omega

/-- Witness of C1 as amended: with the default threshold 4 and the RNG line
(sample 1) raised and held, four ticks write nothing and the fifth writes 1. -/
theorem debounce_stabilization_witness :
    serIn_outs linuxTiocm defaultSettings [0x80, 0x80, 0x80, 0x80, 0x80] serInInit
      = List.replicate 4 none ++ [some 1] :=
  debounce_stabilization linuxTiocm defaultSettings 4 (by decide) (by decide) serInInit 1
    [0x80, 0x80, 0x80, 0x80, 0x80] (by decide) (by decide) (by decide) (by decide)

/-- Counterexample to C1 as stated: with threshold `N = 4`, from the initial
state (last raw sample 0 and last sent byte 0, both different from 1), the
sample 1 observed 4 consecutive times gives no emission on any of the 4 ticks,
so none on the fourth. -/
theorem debounce_stabilization_counterexample :
    defaultSettings.loopsIn = 4 ∧
    serIn_val linuxTiocm 0x80 = 1 ∧ serInInit.old ≠ 1 ∧ serInInit.oldSent ≠ 1 ∧
    serIn_outs linuxTiocm defaultSettings [0x80, 0x80, 0x80, 0x80] serInInit
      = [none, none, none, none] := by
  decide

/-- Claim C2: in a run of `serIn_to_stdout` from the initial state over any
sequence of status words `hist`, a tick with word `d` emits only if the history
ends in `N` ticks (so in particular in `N - 1` ticks) that all carry the raw
sample of `d`; and a tick whose raw sample differs from the sample of the tick
before it emits nothing and leaves the stability counter at 0. -/
theorem debounce_flicker (K : Tiocm) (cfg : Settings) (N : Nat) (hcfg : cfg.loopsIn = N)
    (hist : List Nat) (d : Nat) :
    ((serIn_to_stdout K cfg true d (serIn_run K cfg hist serInInit)).out ≠ none →
      ∃ front back, hist = front ++ back ∧ back.length = N ∧
        ∀ e ∈ back, serIn_val K e = serIn_val K d) ∧
    (∀ hist' p, hist = hist' ++ [p] → serIn_val K d ≠ serIn_val K p →
      (serIn_to_stdout K cfg true d (serIn_run K cfg hist serInInit)).out = none ∧
      (serIn_to_stdout K cfg true d (serIn_run K cfg hist serInInit)).st.cnt = 0) := by
  constructor
  · intro hout
    obtain ⟨hd, hc, hs, -⟩ := serIn_emit_cond K cfg true d _ hout
    obtain ⟨h0, h⟩ := serInInv_run K cfg hist
    rcases h with ⟨ho, hs'⟩ | ⟨front, back, hpre, hlen, hall⟩
    · exact absurd (by rw [hd, ho, hs']) hs
    · have hN : N ≤ back.length := by rw [hcfg] at hc; omega
      refine ⟨front ++ back.take (back.length - N), back.drop (back.length - N), ?_, ?_, ?_⟩
      · rw [List.append_assoc, List.take_append_drop, hpre]
      · rw [List.length_drop]; omega
      · intro e he
        rw [hd]
        exact hall e (List.mem_of_mem_drop he)
  · intro hist' p hpre hne
    have hold : (serIn_run K cfg hist serInInit).old = serIn_val K p := by
      rw [hpre, serIn_run_append]
      simp [serIn_run, serIn_step_old]
    rw [serIn_step_change K cfg true d _ (by rw [hold]; exact hne)]
    exact ⟨rfl, rfl⟩

/-- Witness of C2: with threshold 4, the tick after four ticks of sample 1
emits, and the history does end in four ticks of that sample; a tick with
sample 0 after them emits nothing and resets the counter. -/
theorem debounce_flicker_witness :
    defaultSettings.loopsIn = 4 ∧
    (serIn_to_stdout linuxTiocm defaultSettings true 0x80
      (serIn_run linuxTiocm defaultSettings [0x80, 0x80, 0x80, 0x80] serInInit)).out ≠ none ∧
    (∃ front back, [0x80, 0x80, 0x80, 0x80] = front ++ back ∧ back.length = 4 ∧
      ∀ e ∈ back, serIn_val linuxTiocm e = serIn_val linuxTiocm 0x80) ∧
    (serIn_to_stdout linuxTiocm defaultSettings true 0
      (serIn_run linuxTiocm defaultSettings [0x80, 0x80, 0x80, 0x80] serInInit)).out = none ∧
    (serIn_to_stdout linuxTiocm defaultSettings true 0
      (serIn_run linuxTiocm defaultSettings [0x80, 0x80, 0x80, 0x80] serInInit)).st.cnt = 0 :=
  ⟨by decide, by decide,
    (debounce_flicker linuxTiocm defaultSettings 4 (by decide)
      [0x80, 0x80, 0x80, 0x80] 0x80).1 (by decide),
    (debounce_flicker linuxTiocm defaultSettings 4 (by decide)
      [0x80, 0x80, 0x80, 0x80] 0).2 [0x80, 0x80, 0x80] 0x80 rfl (by decide)⟩

/-- Claim C3: in a run of `serIn_to_stdout` from the initial state, a byte `b`
emitted on a tick equals the raw sample of that tick and differs from the byte
emitted before it (from 0 when nothing was emitted before); and after the
emission any number of further ticks that feed the raw sample `b` emit nothing. -/
theorem button_change_only (K : Tiocm) (cfg : Settings) (hist : List Nat) (d b : Nat)
    (hout : (serIn_to_stdout K cfg true d (serIn_run K cfg hist serInInit)).out = some b) :
    b = serIn_val K d ∧
    b ≠ lastEmitted (serIn_outs K cfg hist serInInit) ∧
    ∀ post : List Nat, (∀ e ∈ post, serIn_val K e = b) →
      serIn_outs K cfg post (serIn_to_stdout K cfg true d (serIn_run K cfg hist serInInit)).st
        = List.replicate post.length none := by
  obtain ⟨hd, hc, hs, ho⟩ := serIn_emit_cond K cfg true d _ (by rw [hout]; simp)
  have hb : b = serIn_val K d := by rw [hout] at ho; exact Option.some.inj ho
  refine ⟨hb, ?_, ?_⟩
  · rw [hb]
    have := serIn_run_oldSent K cfg hist serInInit
    rw [this] at hs
    exact fun h => hs h.symm
  · intro post hv
    apply serIn_quiet K cfg b post hv
    rw [serIn_step_oldSent, hout]
    rfl

/-- Witness of C3: with threshold 4, the fifth tick of sample 1 emits 1, which
is the sample, differs from 0, and is not emitted again while 1 is fed. -/
theorem button_change_only_witness :
    (serIn_to_stdout linuxTiocm defaultSettings true 0x80
      (serIn_run linuxTiocm defaultSettings [0x80, 0x80, 0x80, 0x80] serInInit)).out = some 1 ∧
    1 = serIn_val linuxTiocm 0x80 ∧
    1 ≠ lastEmitted (serIn_outs linuxTiocm defaultSettings [0x80, 0x80, 0x80, 0x80] serInInit) ∧
    ∀ post : List Nat, (∀ e ∈ post, serIn_val linuxTiocm e = 1) →
      serIn_outs linuxTiocm defaultSettings post (serIn_to_stdout linuxTiocm defaultSettings true
          0x80 (serIn_run linuxTiocm defaultSettings [0x80, 0x80, 0x80, 0x80] serInInit)).st
        = List.replicate post.length none :=
  ⟨by decide,
    button_change_only linuxTiocm defaultSettings [0x80, 0x80, 0x80, 0x80] 0x80 1 (by decide)⟩

/-! ## Theorems about `stdin_to_serOut` -/

theorem serOut_setMode_frame (s : SerOutState) (b : Nat) :
    (serOut_setMode s b).cntOut0 = s.cntOut0 ∧ (serOut_setMode s b).cntOut1 = s.cntOut1 ∧
    (serOut_setMode s b).serOutStat0 = s.serOutStat0 ∧
    (serOut_setMode s b).serOutStat1 = s.serOutStat1 := by
  unfold serOut_setMode
  simp only []
  split_ifs <;> simp

theorem serOut_modes_frame (cmds : List Nat) (s : SerOutState) :
    (serOut_modes cmds s).cntOut0 = s.cntOut0 ∧ (serOut_modes cmds s).cntOut1 = s.cntOut1 ∧
    (serOut_modes cmds s).serOutStat0 = s.serOutStat0 ∧
    (serOut_modes cmds s).serOutStat1 = s.serOutStat1 := by
  induction cmds generalizing s with
  | nil => simp [serOut_modes]
  | cons b cmds ih =>
    have h := serOut_setMode_frame s b
    have h' := ih (serOut_setMode s b)
    simp only [serOut_modes, List.foldl_cons] at h' ⊢
    rw [h'.1, h'.2.1, h'.2.2.1, h'.2.2.2]
    exact h

theorem serOut_modes_snoc (cmds : List Nat) (b : Nat) (s : SerOutState) :
    serOut_modes (cmds ++ [b]) s = serOut_setMode (serOut_modes cmds s) b := by
  simp [serOut_modes, List.foldl_append]

theorem serOut_sync_modes (s : SerOutState) :
    (serOut_sync s).serOutMode0 = s.serOutMode0 ∧ (serOut_sync s).serOutMode1 = s.serOutMode1 := by
  unfold serOut_sync
  simp only []
  split_ifs <;> simp

/-- The state after a tick in terms of the state `u` after the mode update. -/
theorem serOut_tick_st (K : Tiocm) (cfg : Settings) (buf : List Nat) (okSer okTxd : Bool)
    (data : Nat) (s : SerOutState) :
    let u := serOut_modes (serOut_cmds cfg buf) s
    let y := serOut_sync u
    let r := (stdin_to_serOut K cfg (some buf) okSer okTxd data s).st
    r.serOutMode0 = u.serOutMode0 ∧ r.serOutMode1 = u.serOutMode1 ∧
    (r.cntOut0, r.serOutStat0) = serOut_led cfg.loopsOut u.serOutMode0 y.cntOut0 y.serOutStat0 ∧
    (r.cntOut1, r.serOutStat1) = serOut_led cfg.loopsOut u.serOutMode1 y.cntOut1 y.serOutStat1 := by
  intro u y r
  have hm := serOut_sync_modes u
  refine ⟨?_, ?_, ?_, ?_⟩
  · show (serOut_sync u).serOutMode0 = _
    exact hm.1
  · show (serOut_sync u).serOutMode1 = _
    exact hm.2
  · show serOut_led cfg.loopsOut y.serOutMode0 y.cntOut0 y.serOutStat0 = _
    rw [show y.serOutMode0 = u.serOutMode0 from hm.1]
  · show serOut_led cfg.loopsOut y.serOutMode1 y.cntOut1 y.serOutStat1 = _
    rw [show y.serOutMode1 = u.serOutMode1 from hm.2]

theorem serOut_modes_last (cmds : List Nat) (s : SerOutState) :
    (serOut_modes cmds s).serOutMode0
      = (match lastCmd0 cmds with
         | some b => ((b % 10 : Nat) : Int)
         | none => s.serOutMode0) ∧
    (serOut_modes cmds s).serOutMode1
      = (match lastCmd1 cmds with
         | some b => (((b / 10) % 10 : Nat) : Int)
         | none => s.serOutMode1) := by
  induction cmds using List.reverseRecOn with
  | nil => simp [serOut_modes, lastCmd0, lastCmd1]
  | append_singleton cmds b ih =>
    rw [serOut_modes_snoc]
    obtain ⟨ih0, ih1⟩ := ih
    constructor
    · by_cases h : b % 10 = 9
      · have : (serOut_setMode (serOut_modes cmds s) b).serOutMode0
            = (serOut_modes cmds s).serOutMode0 := by
          unfold serOut_setMode
          simp only []
          split_ifs <;> simp_all
        rw [this, ih0]
        simp [lastCmd0, List.find?_cons, h]
      · have : (serOut_setMode (serOut_modes cmds s) b).serOutMode0 = ((b % 10 : Nat) : Int) := by
          unfold serOut_setMode
          simp only []
          split_ifs <;> simp_all <;> omega
        rw [this]
        simp [lastCmd0, List.find?_cons, h]
    · by_cases h : (b / 10) % 10 = 9
      · have : (serOut_setMode (serOut_modes cmds s) b).serOutMode1
            = (serOut_modes cmds s).serOutMode1 := by
          unfold serOut_setMode
          simp only []
          split_ifs <;> simp_all
        rw [this, ih1]
        simp [lastCmd1, List.find?_cons, h]
      · have : (serOut_setMode (serOut_modes cmds s) b).serOutMode1
            = (((b / 10) % 10 : Nat) : Int) := by
          unfold serOut_setMode
          simp only []
          split_ifs <;> simp_all <;> omega
        rw [this]
        simp [lastCmd1, List.find?_cons, h]

theorem serOut_sync_cnt (s : SerOutState) :
    (s.serOutMode0 = s.serOutMode1 →
      (serOut_sync s).cntOut0 = min s.cntOut0 s.cntOut1 ∧
      (serOut_sync s).cntOut1 = min s.cntOut0 s.cntOut1 ∧
      (serOut_sync s).serOutStat0 = s.serOutStat1 ∧
      (serOut_sync s).serOutStat1 = s.serOutStat1) ∧
    (s.serOutMode0 ≠ s.serOutMode1 → serOut_sync s = s) := by
  unfold serOut_sync
  simp only []
  constructor
  · intro h
    rw [if_pos h]
    split_ifs with hc
    · simp only []
      rw [min_eq_right (le_of_lt hc)]
      simp
    · simp only []
      rw [min_eq_left (not_lt.1 hc)]
      simp
  · intro h
    rw [if_neg h]

theorem serOut_led_hold (loopsOut : Fin 7 → Int) (mode cnt stat : Int) :
    (mode = 0 → serOut_led loopsOut mode cnt stat = (0, 0)) ∧
    (mode = 1 → serOut_led loopsOut mode cnt stat = (0, 1)) := by
  constructor
  · intro h
    subst h
    simp [serOut_led]
  · intro h
    subst h
    simp [serOut_led]

theorem serOut_run_append (K : Tiocm) (cfg : Settings) (a b : List (List Nat × Nat))
    (s : SerOutState) :
    serOut_run K cfg (a ++ b) s = serOut_run K cfg b (serOut_run K cfg a s) := by
  induction a generalizing s with
  | nil => rfl
  | cons t a ih => simp [serOut_run, ih]

theorem serOut_led_blink (loopsOut : Fin 7 → Int) (i : Fin 7) (cnt stat : Int) :
    serOut_led loopsOut ((i : Nat) + 2) cnt stat
      = if cnt < loopsOut i then (cnt + 1, stat) else (0, 1 - stat) := by
  have hi := i.isLt
  have h0 : ¬ (((i : Nat) : Int) + 2 = 0) := by omega
  have h1 : ¬ (((i : Nat) : Int) + 2 = 1) := by omega
  have h2 : (2 : Int) ≤ ((i : Nat) : Int) + 2 ∧ ((i : Nat) : Int) + 2 ≤ 8 := by omega
  have hidx : (⟨(((i : Nat) : Int) + 2 - 2).toNat, by omega⟩ : Fin 7) = i := by
    apply Fin.ext
    simp
  unfold serOut_led
  simp only [h0, h1, if_false, dif_pos h2, hidx]

theorem succ_div_mod (k P : Nat) (hP : 0 < P) :
    (k % P + 1 < P → (k + 1) % P = k % P + 1 ∧ (k + 1) / P = k / P) ∧
    (¬ (k % P + 1 < P) → (k + 1) % P = 0 ∧ (k + 1) / P = k / P + 1) := by
  have hk := Nat.div_add_mod k P
  have hlt := Nat.mod_lt k hP
  constructor
  · intro h
    have e : k + 1 = (k % P + 1) + P * (k / P) := by omega
    rw [e, Nat.add_mul_mod_self_left, Nat.add_mul_div_left _ _ hP, Nat.mod_eq_of_lt h,
      Nat.div_eq_of_lt h]
    simp
  · intro h
    have e : k + 1 = P * (k / P + 1) := by
      have : k % P + 1 = P := by omega
      rw [Nat.mul_add, Nat.mul_one]
      omega
    rw [e, Nat.mul_mod_right, Nat.mul_div_cancel_left _ hP]
    simp

/-- The counter and level of a LED in blink mode `i + 2` with threshold `T`,
`k` evaluations after `(0, 0)`. -/
theorem serOut_led_iter (loopsOut : Fin 7 → Int) (i : Fin 7) (T : Nat) (hT : loopsOut i = T)
    (k : Nat) :
    serOut_led loopsOut ((i : Nat) + 2) ((k % (T + 1) : Nat) : Int) (((k / (T + 1)) % 2 : Nat) : Int)
      = ((((k + 1) % (T + 1) : Nat) : Int), ((((k + 1) / (T + 1)) % 2 : Nat) : Int)) := by
  rw [serOut_led_blink, hT]
  have h := succ_div_mod k (T + 1) (Nat.succ_pos T)
  by_cases hc : k % (T + 1) + 1 < T + 1
  · obtain ⟨hm, hd⟩ := h.1 hc
    have hlt : ((k % (T + 1) : Nat) : Int) < (T : Int) := by omega
    rw [if_pos hlt, hm, hd]
    simp
  · obtain ⟨hm, hd⟩ := h.2 hc
    have hlt : ¬ (((k % (T + 1) : Nat) : Int) < (T : Int)) := by omega
    rw [if_neg hlt, hm, hd]
    have : (k / (T + 1) + 1) % 2 = 1 - (k / (T + 1)) % 2 := by omega
    rw [this]
    have h2 : (k / (T + 1)) % 2 ≤ 1 := by omega
    push_cast [Nat.cast_sub h2]
    simp

/-- A tick without command bytes in which the two modes differ: each LED is
evaluated on its own counter and level, the modes stay. -/
theorem serOut_idle_tick (K : Tiocm) (cfg : Settings) (buf : List Nat) (okSer okTxd : Bool)
    (data : Nat) (s : SerOutState) (hidle : serOut_cmds cfg buf = [])
    (hne : s.serOutMode0 ≠ s.serOutMode1) :
    let r := (stdin_to_serOut K cfg (some buf) okSer okTxd data s).st
    r.serOutMode0 = s.serOutMode0 ∧ r.serOutMode1 = s.serOutMode1 ∧
    (r.cntOut0, r.serOutStat0) = serOut_led cfg.loopsOut s.serOutMode0 s.cntOut0 s.serOutStat0 ∧
    (r.cntOut1, r.serOutStat1) = serOut_led cfg.loopsOut s.serOutMode1 s.cntOut1 s.serOutStat1 := by
  intro r
  have h := serOut_tick_st K cfg buf okSer okTxd data s
  simp only [hidle] at h
  have hu : serOut_modes [] s = s := rfl
  rw [hu, (serOut_sync_cnt s).2 hne] at h
  exact h

theorem serOut_idle_run (K : Tiocm) (cfg : Settings) (i : Fin 7) (T : Nat)
    (hT : cfg.loopsOut i = T) (ticks : List (List Nat × Nat))
    (hidle : ∀ t ∈ ticks, serOut_cmds cfg t.1 = []) (s : SerOutState)
    (hne : s.serOutMode0 ≠ s.serOutMode1) :
    let r := serOut_run K cfg ticks s
    r.serOutMode0 = s.serOutMode0 ∧ r.serOutMode1 = s.serOutMode1 ∧
    (s.serOutMode0 = (i : Nat) + 2 → s.cntOut0 = 0 → s.serOutStat0 = 0 →
      r.cntOut0 = ((ticks.length % (T + 1) : Nat) : Int) ∧
      r.serOutStat0 = (((ticks.length / (T + 1)) % 2 : Nat) : Int)) ∧
    (s.serOutMode1 = (i : Nat) + 2 → s.cntOut1 = 0 → s.serOutStat1 = 0 →
      r.cntOut1 = ((ticks.length % (T + 1) : Nat) : Int) ∧
      r.serOutStat1 = (((ticks.length / (T + 1)) % 2 : Nat) : Int)) := by
  induction ticks using List.reverseRecOn with
  | nil =>
    refine ⟨rfl, rfl, ?_, ?_⟩
    · intro _ hc hs
      simp [serOut_run, hc, hs]
    · intro _ hc hs
      simp [serOut_run, hc, hs]
  | append_singleton ticks t ih =>
    have ih := ih (fun t ht => hidle t (by simp [ht]))
    simp only [] at ih
    obtain ⟨hm0, hm1, ih0, ih1⟩ := ih
    have hstep := serOut_idle_tick K cfg t.1 true true t.2 (serOut_run K cfg ticks s)
      (hidle t (by simp)) (by rw [hm0, hm1]; exact hne)
    simp only [] at hstep
    obtain ⟨hs0, hs1, hl0, hl1⟩ := hstep
    have hrun : serOut_run K cfg (ticks ++ [t]) s
        = (stdin_to_serOut K cfg (some t.1) true true t.2 (serOut_run K cfg ticks s)).st := by
      rw [serOut_run_append]
      rfl
    simp only [hrun, List.length_append, List.length_singleton]
    refine ⟨by rw [hs0, hm0], by rw [hs1, hm1], ?_, ?_⟩
    · intro hm hc hs
      obtain ⟨ic, il⟩ := ih0 hm hc hs
      rw [hm0, hm, ic, il, serOut_led_iter cfg.loopsOut i T hT] at hl0
      exact ⟨congrArg Prod.fst hl0, congrArg Prod.snd hl0⟩
    · intro hm hc hs
      obtain ⟨ic, il⟩ := ih1 hm hc hs
      rw [hm1, hm, ic, il, serOut_led_iter cfg.loopsOut i T hT] at hl1
      exact ⟨congrArg Prod.fst hl1, congrArg Prod.snd hl1⟩

theorem serOut_setMode_eq (s : SerOutState) (b : Nat) :
    serOut_setMode s b
      = { s with
          serOutMode0 := if b % 10 = 9 then s.serOutMode0 else ((b % 10 : Nat) : Int),
          serOutMode1 := if (b / 10) % 10 = 9 then s.serOutMode1
            else (((b / 10) % 10 : Nat) : Int) } := by
  unfold serOut_setMode
  simp only []
  split_ifs <;> first | rfl | (exfalso; omega)

theorem serOut_modes_eq (cmds : List Nat) (s : SerOutState) :
    serOut_modes cmds s
      = { s with serOutMode0 := (serOut_modes cmds s).serOutMode0,
                 serOutMode1 := (serOut_modes cmds s).serOutMode1 } := by
  induction cmds using List.reverseRecOn with
  | nil => rfl
  | append_singleton cmds b ih =>
    rw [serOut_modes_snoc, serOut_setMode_eq]
    generalize serOut_modes cmds s = u at ih ⊢
    rw [ih]

/-- Claim C4: for a mode `m = i + 2` in [2,8] with threshold `T = loopsOut[m-2] ≥ 0`,
a channel held in mode `m` over ticks of `stdin_to_serOut` without command bytes,
the other channel being in a different mode, starting from counter 0 and level
0, has after `k` ticks the level 1 exactly when `k / (T + 1)` is odd, and level
0 otherwise: the level toggles every `T + 1` ticks with period `2 * (T + 1)`.
Stated for LED 0 and for LED 1. -/
theorem blink_periodicity (K : Tiocm) (cfg : Settings) (i : Fin 7) (T : Nat)
    (hT : cfg.loopsOut i = T) (ticks : List (List Nat × Nat))
    (hidle : ∀ t ∈ ticks, serOut_cmds cfg t.1 = []) (s : SerOutState)
    (hne : s.serOutMode0 ≠ s.serOutMode1) :
    (s.serOutMode0 = (i : Nat) + 2 → s.cntOut0 = 0 → s.serOutStat0 = 0 →
      (serOut_run K cfg ticks s).serOutStat0
        = if (ticks.length / (T + 1)) % 2 = 1 then 1 else 0) ∧
    (s.serOutMode1 = (i : Nat) + 2 → s.cntOut1 = 0 → s.serOutStat1 = 0 →
      (serOut_run K cfg ticks s).serOutStat1
        = if (ticks.length / (T + 1)) % 2 = 1 then 1 else 0) := by
  have h := serOut_idle_run K cfg i T hT ticks hidle s hne
  simp only [] at h
  obtain ⟨-, -, h0, h1⟩ := h
  have hcast : ∀ q : Nat, ((q % 2 : Nat) : Int) = if q % 2 = 1 then 1 else 0 := by
    intro q
    rcases Nat.mod_two_eq_zero_or_one q with hq | hq <;> simp [hq]
  constructor
  · intro hm hc hs
    rw [(h0 hm hc hs).2, hcast]
  · intro hm hc hs
    rw [(h1 hm hc hs).2, hcast]

/-- Witness of C4: LED 0 in mode 8 (default threshold 5) is on after 6 idle
ticks and off again after 12. -/
theorem blink_periodicity_witness :
    defaultSettings.loopsOut 6 = (5 : Nat) ∧
    (serOut_run linuxTiocm defaultSettings (List.replicate 6 ([], 0)) blink8).serOutStat0 = 1 ∧
    (serOut_run linuxTiocm defaultSettings (List.replicate 12 ([], 0)) blink8).serOutStat0 = 0 :=
  ⟨by decide,
   (blink_periodicity linuxTiocm defaultSettings 6 5 (by decide) (List.replicate 6 ([], 0))
      (by decide) blink8 (by decide)).1 (by decide) (by decide) (by decide),
   (blink_periodicity linuxTiocm defaultSettings 6 5 (by decide) (List.replicate 12 ([], 0))
      (by decide) blink8 (by decide)).1 (by decide) (by decide) (by decide)⟩

/-- Claim C5: after a tick of `stdin_to_serOut` that handles the command bytes
`serOut_cmds cfg buf`, the stored mode of LED 0 is `b % 10` for the last byte
`b` with `b % 10 ≠ 9`, and the stored mode of LED 1 is `(b / 10) % 10` for the
last byte with `(b / 10) % 10 ≠ 9`; a LED for which there is no such byte keeps
its prior stored mode.  It holds for bytes of any value. -/
theorem mode_command_decoding (K : Tiocm) (cfg : Settings) (buf : List Nat) (okSer okTxd : Bool)
    (data : Nat) (s : SerOutState) :
    (stdin_to_serOut K cfg (some buf) okSer okTxd data s).st.serOutMode0
      = (match lastCmd0 (serOut_cmds cfg buf) with
         | some b => ((b % 10 : Nat) : Int)
         | none => s.serOutMode0) ∧
    (stdin_to_serOut K cfg (some buf) okSer okTxd data s).st.serOutMode1
      = (match lastCmd1 (serOut_cmds cfg buf) with
         | some b => (((b / 10) % 10 : Nat) : Int)
         | none => s.serOutMode1) := by
  have h := serOut_tick_st K cfg buf okSer okTxd data s
  have hl := serOut_modes_last (serOut_cmds cfg buf) s
  simp only [] at h
  rw [h.1, h.2.1]
  exact hl

/-- Claim C6, as amended: in a tick of `stdin_to_serOut` whose only command byte
`b` supplies mode 9 for a channel, the stored mode of that channel after the
tick is its value before the tick; its counter and level are unchanged as well
when the channel rests in a hold mode (mode 0 with counter 0 and level 0, or
mode 1 with counter 0 and level 1); in a blink mode `i + 2` that differs from
the other channel's mode after the tick, the channel is advanced by the blink
rule: counter + 1 with the level kept while the counter is below the threshold,
otherwise counter 0 and the level toggled.  Stated for LED 0 (`b % 10 = 9`)
and for LED 1 (`(b / 10) % 10 = 9`). -/
theorem mode9_keeps_mode (K : Tiocm) (cfg : Settings) (buf : List Nat) (okSer okTxd : Bool)
    (data : Nat) (s : SerOutState) (b : Nat) (hc : serOut_cmds cfg buf = [b]) :
    let r := (stdin_to_serOut K cfg (some buf) okSer okTxd data s).st
    (b % 10 = 9 →
      r.serOutMode0 = s.serOutMode0 ∧
      ((s.serOutMode0 = 0 ∧ s.cntOut0 = 0 ∧ s.serOutStat0 = 0) ∨
        (s.serOutMode0 = 1 ∧ s.cntOut0 = 0 ∧ s.serOutStat0 = 1) →
        r.cntOut0 = s.cntOut0 ∧ r.serOutStat0 = s.serOutStat0) ∧
      (∀ i : Fin 7, s.serOutMode0 = (i : Nat) + 2 → r.serOutMode1 ≠ s.serOutMode0 →
        (r.cntOut0, r.serOutStat0)
          = if s.cntOut0 < cfg.loopsOut i then (s.cntOut0 + 1, s.serOutStat0)
            else (0, 1 - s.serOutStat0))) ∧
    ((b / 10) % 10 = 9 →
      r.serOutMode1 = s.serOutMode1 ∧
      ((s.serOutMode1 = 0 ∧ s.cntOut1 = 0 ∧ s.serOutStat1 = 0) ∨
        (s.serOutMode1 = 1 ∧ s.cntOut1 = 0 ∧ s.serOutStat1 = 1) →
        r.cntOut1 = s.cntOut1 ∧ r.serOutStat1 = s.serOutStat1) ∧
      (∀ i : Fin 7, s.serOutMode1 = (i : Nat) + 2 → r.serOutMode0 ≠ s.serOutMode1 →
        (r.cntOut1, r.serOutStat1)
          = if s.cntOut1 < cfg.loopsOut i then (s.cntOut1 + 1, s.serOutStat1)
            else (0, 1 - s.serOutStat1))) := by
  intro r
  have h := serOut_tick_st K cfg buf okSer okTxd data s
  simp only [hc] at h
  obtain ⟨hr0, hr1, hl0, hl1⟩ := h
  have hu : serOut_modes [b] s = serOut_setMode s b := rfl
  rw [hu] at hr0 hr1 hl0 hl1
  have hue := serOut_setMode_eq s b
  have hs := serOut_sync_cnt (serOut_setMode s b)
  have hold := serOut_led_hold cfg.loopsOut
  constructor
  · intro h9
    have hm : (serOut_setMode s b).serOutMode0 = s.serOutMode0 := by rw [hue]; simp [h9]
    have hc0 : (serOut_setMode s b).cntOut0 = s.cntOut0 := by rw [hue]
    have hs0 : (serOut_setMode s b).serOutStat0 = s.serOutStat0 := by rw [hue]
    rw [hm] at hl0 hr0
    refine ⟨hr0, ?_, ?_⟩
    · rintro (⟨h0, hcnt, hst⟩ | ⟨h1, hcnt, hst⟩)
      · rw [(hold _ _ _).1 h0] at hl0
        exact ⟨by rw [hcnt]; exact congrArg Prod.fst hl0, by rw [hst]; exact congrArg Prod.snd hl0⟩
      · rw [(hold _ _ _).2 h1] at hl0
        exact ⟨by rw [hcnt]; exact congrArg Prod.fst hl0, by rw [hst]; exact congrArg Prod.snd hl0⟩
    · intro i hi hne
      have hne' : (serOut_setMode s b).serOutMode0 ≠ (serOut_setMode s b).serOutMode1 := by
        rw [hm, ← hr1]; exact fun e => hne e.symm
      rw [hs.2 hne', hc0, hs0, hi, serOut_led_blink] at hl0
      exact hl0
  · intro h9
    have hm : (serOut_setMode s b).serOutMode1 = s.serOutMode1 := by rw [hue]; simp [h9]
    have hc1 : (serOut_setMode s b).cntOut1 = s.cntOut1 := by rw [hue]
    have hs1 : (serOut_setMode s b).serOutStat1 = s.serOutStat1 := by rw [hue]
    rw [hm] at hl1 hr1
    refine ⟨hr1, ?_, ?_⟩
    · rintro (⟨h0, hcnt, hst⟩ | ⟨h1, hcnt, hst⟩)
      · rw [(hold _ _ _).1 h0] at hl1
        exact ⟨by rw [hcnt]; exact congrArg Prod.fst hl1, by rw [hst]; exact congrArg Prod.snd hl1⟩
      · rw [(hold _ _ _).2 h1] at hl1
        exact ⟨by rw [hcnt]; exact congrArg Prod.fst hl1, by rw [hst]; exact congrArg Prod.snd hl1⟩
    · intro i hi hne
      have hne' : (serOut_setMode s b).serOutMode0 ≠ (serOut_setMode s b).serOutMode1 := by
        rw [hm, ← hr0]; exact hne
      rw [hs.2 hne', hc1, hs1, hi, serOut_led_blink] at hl1
      exact hl1

/-- Witness of C6 as amended: from the initial state (LED 0 resting in mode 0)
the single command byte 19 (mode 9 for LED 0, mode 1 for LED 1) leaves mode,
counter and level of LED 0 as they were. -/
theorem mode9_keeps_mode_witness :
    serOut_cmds defaultSettings [19] = [19] ∧ 19 % 10 = 9 ∧
    (stdin_to_serOut linuxTiocm defaultSettings (some [19]) true true 0 serOutInit).st.serOutMode0
      = serOutInit.serOutMode0 ∧
    (stdin_to_serOut linuxTiocm defaultSettings (some [19]) true true 0 serOutInit).st.cntOut0
      = serOutInit.cntOut0 ∧
    (stdin_to_serOut linuxTiocm defaultSettings (some [19]) true true 0 serOutInit).st.serOutStat0
      = serOutInit.serOutStat0 :=
  ⟨by decide, by decide,
    ((mode9_keeps_mode linuxTiocm defaultSettings [19] true true 0 serOutInit 19 (by decide)).1
      (by decide)).1,
    ((mode9_keeps_mode linuxTiocm defaultSettings [19] true true 0 serOutInit 19 (by decide)).1
      (by decide)).2.1 (Or.inl (by decide))⟩

/-- Counterexample to C6 as stated: after a first tick with the command byte 8
LED 0 is in mode 8 (in [0,8]) with counter 1 and LED 1 is off.  The only command
byte of the next tick is 9, which supplies mode 9 for LED 0; after that tick the
counter of LED 0 is 2, not 1. -/
theorem mode9_keeps_mode_counterexample :
    serOut_cmds defaultSettings [9] = [9] ∧ 9 % 10 = 9 ∧
    (stdin_to_serOut linuxTiocm defaultSettings (some [8]) true true 0
      serOutInit).st.serOutMode0 = 8 ∧
    (stdin_to_serOut linuxTiocm defaultSettings (some [8]) true true 0
      serOutInit).st.cntOut0 = 1 ∧
    (stdin_to_serOut linuxTiocm defaultSettings (some [9]) true true 0
      (stdin_to_serOut linuxTiocm defaultSettings (some [8]) true true 0
        serOutInit).st).st.cntOut0 = 2 := by
  decide

/-- Claim C7, as amended: when the last command byte `bn` of a tick decodes to
no mode 9 (`bn % 10 ≠ 9` and `(bn / 10) % 10 ≠ 9`), `stdin_to_serOut` on the
command bytes `b1..bn` gives the same result, so the same modes, counters and
levels, as on the single command byte `bn` from the same state. -/
theorem final_command_visible (K : Tiocm) (cfg : Settings) (buf buf' : List Nat)
    (okSer okTxd : Bool) (data : Nat) (s : SerOutState) (cmds : List Nat) (bn : Nat)
    (hc : serOut_cmds cfg buf = cmds ++ [bn]) (hc' : serOut_cmds cfg buf' = [bn])
    (h0 : bn % 10 ≠ 9) (h1 : (bn / 10) % 10 ≠ 9) :
    stdin_to_serOut K cfg (some buf) okSer okTxd data s
      = stdin_to_serOut K cfg (some buf') okSer okTxd data s := by
  have hm : serOut_modes (cmds ++ [bn]) s = serOut_modes [bn] s := by
    rw [serOut_modes_snoc, serOut_setMode_eq, serOut_modes_eq cmds s]
    show _ = serOut_setMode s bn
    rw [serOut_setMode_eq]
    simp [h0, h1]
  unfold stdin_to_serOut
  simp only [hc, hc', hm]

/-- Witness of C7 as amended: the bytes 1, 99, 23 in one tick act as 23 alone. -/
theorem final_command_visible_witness :
    stdin_to_serOut linuxTiocm defaultSettings (some [1, 99, 23]) true true 0 serOutInit
      = stdin_to_serOut linuxTiocm defaultSettings (some [23]) true true 0 serOutInit :=
  final_command_visible linuxTiocm defaultSettings [1, 99, 23] [23] true true 0 serOutInit
    [1, 99] 23 (by decide) (by decide) (by decide) (by decide)

/-- Counterexample to C7 as stated: from the initial state the bytes 1, 99 in
one tick leave LED 0 in mode 1 with level 1, while the final byte 99 alone
leaves it in mode 0 with level 0. -/
theorem final_command_visible_counterexample :
    serOut_cmds defaultSettings [1, 99] = [1, 99] ∧ serOut_cmds defaultSettings [99] = [99] ∧
    (stdin_to_serOut linuxTiocm defaultSettings (some [1, 99]) true true 0
      serOutInit).st.serOutMode0 = 1 ∧
    (stdin_to_serOut linuxTiocm defaultSettings (some [99]) true true 0
      serOutInit).st.serOutMode0 = 0 ∧
    (stdin_to_serOut linuxTiocm defaultSettings (some [1, 99]) true true 0
      serOutInit).st.serOutStat0 = 1 ∧
    (stdin_to_serOut linuxTiocm defaultSettings (some [99]) true true 0
      serOutInit).st.serOutStat0 = 0 := by
  decide

/-- Claim C8: in a tick of `stdin_to_serOut`, with `u` the statics after the
mode update and `y` the statics after the synchronisation step, which are the
ones the per-channel evaluation starts from: if the two modes of `u` are equal,
both counters of `y` equal the minimum of the two counters before the tick; if
they differ, neither counter is changed.  Instance: LED 0 at mode 3 with counter
2 and LED 1 set to mode 3 by the byte 39 with counter 0 gives both counters 0. -/
theorem sync_clamps_to_min (K : Tiocm) (cfg : Settings) (buf : List Nat) (okSer okTxd : Bool)
    (data : Nat) (s : SerOutState) :
    let u := serOut_modes (serOut_cmds cfg buf) s
    let y := serOut_sync u
    stdin_to_serOut K cfg (some buf) okSer okTxd data s
      = serOut_emit K okSer okTxd data (serOut_eval cfg.loopsOut y) ∧
    (u.serOutMode0 = u.serOutMode1 →
      y.cntOut0 = min s.cntOut0 s.cntOut1 ∧ y.cntOut1 = min s.cntOut0 s.cntOut1) ∧
    (u.serOutMode0 ≠ u.serOutMode1 → y.cntOut0 = s.cntOut0 ∧ y.cntOut1 = s.cntOut1) ∧
    (serOut_cmds cfg buf = [39] → s.serOutMode0 = 3 → s.cntOut0 = 2 → s.cntOut1 = 0 →
      u.serOutMode0 = 3 ∧ u.serOutMode1 = 3 ∧ y.cntOut0 = 0 ∧ y.cntOut1 = 0) := by
  intro u y
  have hf := serOut_modes_frame (serOut_cmds cfg buf) s
  have hs := serOut_sync_cnt u
  have hmin : u.serOutMode0 = u.serOutMode1 →
      y.cntOut0 = min s.cntOut0 s.cntOut1 ∧ y.cntOut1 = min s.cntOut0 s.cntOut1 := by
    intro h
    have h' := hs.1 h
    rw [show u.cntOut0 = s.cntOut0 from hf.1, show u.cntOut1 = s.cntOut1 from hf.2.1] at h'
    exact ⟨h'.1, h'.2.1⟩
  refine ⟨rfl, hmin, ?_, ?_⟩
  · intro h
    show (serOut_sync u).cntOut0 = _ ∧ (serOut_sync u).cntOut1 = _
    rw [hs.2 h]
    exact ⟨hf.1, hf.2.1⟩
  · intro hc hm h0 h1
    have hu0 : u.serOutMode0 = 3 := by
      show (serOut_modes (serOut_cmds cfg buf) s).serOutMode0 = 3
      rw [hc]
      simp [serOut_modes, serOut_setMode, hm]
    have hu1 : u.serOutMode1 = 3 := by
      show (serOut_modes (serOut_cmds cfg buf) s).serOutMode1 = 3
      rw [hc]
      simp [serOut_modes, serOut_setMode]
    have := hmin (by rw [hu0, hu1])
    rw [h0, h1] at this
    exact ⟨hu0, hu1, by simpa using this.1, by simpa using this.2⟩

/-- Witness of C8: the instance of the claim, on the default settings. -/
theorem sync_clamps_to_min_witness :
    (serOut_modes (serOut_cmds defaultSettings [39]) mode3Counter2).serOutMode0
      = (serOut_modes (serOut_cmds defaultSettings [39]) mode3Counter2).serOutMode1 ∧
    (serOut_sync (serOut_modes (serOut_cmds defaultSettings [39]) mode3Counter2)).cntOut0 = 0 ∧
    (serOut_sync (serOut_modes (serOut_cmds defaultSettings [39]) mode3Counter2)).cntOut1 = 0 :=
  ⟨by decide,
   ((sync_clamps_to_min linuxTiocm defaultSettings [39] true true 0 mode3Counter2).2.2.2
      (by decide) (by decide) (by decide) (by decide)).2.2⟩

/-- Claim C9: after a tick of `stdin_to_serOut` whose modes are equal after the
mode update, the two channels have equal modes, equal counters and equal levels;
if their levels were equal before the tick, LED 0 changes level in the tick
exactly when LED 1 does.  Hence after every tick of a run that leaves the two
modes equal, counters and levels are equal. -/
theorem lock_step (K : Tiocm) (cfg : Settings) (buf : List Nat) (okSer okTxd : Bool)
    (data : Nat) (s : SerOutState) :
    ((serOut_modes (serOut_cmds cfg buf) s).serOutMode0
        = (serOut_modes (serOut_cmds cfg buf) s).serOutMode1 →
      (stdin_to_serOut K cfg (some buf) okSer okTxd data s).st.serOutMode0
        = (stdin_to_serOut K cfg (some buf) okSer okTxd data s).st.serOutMode1 ∧
      (stdin_to_serOut K cfg (some buf) okSer okTxd data s).st.cntOut0
        = (stdin_to_serOut K cfg (some buf) okSer okTxd data s).st.cntOut1 ∧
      (stdin_to_serOut K cfg (some buf) okSer okTxd data s).st.serOutStat0
        = (stdin_to_serOut K cfg (some buf) okSer okTxd data s).st.serOutStat1 ∧
      (s.serOutStat0 = s.serOutStat1 →
        ((stdin_to_serOut K cfg (some buf) okSer okTxd data s).st.serOutStat0 ≠ s.serOutStat0
          ↔ (stdin_to_serOut K cfg (some buf) okSer okTxd data s).st.serOutStat1
              ≠ s.serOutStat1))) ∧
    (∀ (ticks : List (List Nat × Nat)) (t : List Nat × Nat),
      (serOut_run K cfg (ticks ++ [t]) s).serOutMode0
        = (serOut_run K cfg (ticks ++ [t]) s).serOutMode1 →
      (serOut_run K cfg (ticks ++ [t]) s).cntOut0 = (serOut_run K cfg (ticks ++ [t]) s).cntOut1 ∧
      (serOut_run K cfg (ticks ++ [t]) s).serOutStat0
        = (serOut_run K cfg (ticks ++ [t]) s).serOutStat1) := by
  have key : ∀ (buf : List Nat) (okSer okTxd : Bool) (data : Nat) (s : SerOutState),
      (serOut_modes (serOut_cmds cfg buf) s).serOutMode0
        = (serOut_modes (serOut_cmds cfg buf) s).serOutMode1 →
      (stdin_to_serOut K cfg (some buf) okSer okTxd data s).st.serOutMode0
        = (stdin_to_serOut K cfg (some buf) okSer okTxd data s).st.serOutMode1 ∧
      (stdin_to_serOut K cfg (some buf) okSer okTxd data s).st.cntOut0
        = (stdin_to_serOut K cfg (some buf) okSer okTxd data s).st.cntOut1 ∧
      (stdin_to_serOut K cfg (some buf) okSer okTxd data s).st.serOutStat0
        = (stdin_to_serOut K cfg (some buf) okSer okTxd data s).st.serOutStat1 := by
    intro buf okSer okTxd data s hm
    have h := serOut_tick_st K cfg buf okSer okTxd data s
    simp only [] at h
    obtain ⟨h0, h1, hl0, hl1⟩ := h
    have hs := (serOut_sync_cnt (serOut_modes (serOut_cmds cfg buf) s)).1 hm
    rw [hs.1, hs.2.2.1] at hl0
    rw [hs.2.1, hs.2.2.2, ← hm] at hl1
    have hp := hl0.trans hl1.symm
    exact ⟨by rw [h0, h1, hm], congrArg Prod.fst hp, congrArg Prod.snd hp⟩
  constructor
  · intro hm
    obtain ⟨k0, k1, k2⟩ := key buf okSer okTxd data s hm
    refine ⟨k0, k1, k2, ?_⟩
    intro hss
    rw [k2, hss]
  · intro ticks t hm
    have hrun : serOut_run K cfg (ticks ++ [t]) s
        = (stdin_to_serOut K cfg (some t.1) true true t.2 (serOut_run K cfg ticks s)).st := by
      rw [serOut_run_append]
      rfl
    rw [hrun] at hm ⊢
    have h := serOut_tick_st K cfg t.1 true true t.2 (serOut_run K cfg ticks s)
    simp only [] at h
    rw [h.1, h.2.1] at hm
    exact (key t.1 true true t.2 _ hm).2

/-- Witness of C9: LED 0 in mode 3 at counter 2, LED 1 set to mode 3 by the
byte 39: after the tick both are in mode 3 with counter 1 and level 0. -/
theorem lock_step_witness :
    (serOut_modes (serOut_cmds defaultSettings [39]) mode3Counter2).serOutMode0
      = (serOut_modes (serOut_cmds defaultSettings [39]) mode3Counter2).serOutMode1 ∧
    (stdin_to_serOut linuxTiocm defaultSettings (some [39]) true true 0 mode3Counter2).st.cntOut0
      = 1 ∧
    (stdin_to_serOut linuxTiocm defaultSettings (some [39]) true true 0 mode3Counter2).st.cntOut0
      = (stdin_to_serOut linuxTiocm defaultSettings (some [39]) true true 0
          mode3Counter2).st.cntOut1 ∧
    (stdin_to_serOut linuxTiocm defaultSettings (some [39]) true true 0
        mode3Counter2).st.serOutStat0
      = (stdin_to_serOut linuxTiocm defaultSettings (some [39]) true true 0
          mode3Counter2).st.serOutStat1 :=
  ⟨by decide, by decide,
    ((lock_step linuxTiocm defaultSettings [39] true true 0 mode3Counter2).1 (by decide)).2.1,
    ((lock_step linuxTiocm defaultSettings [39] true true 0 mode3Counter2).1 (by decide)).2.2.1⟩

/-- Claim C10: for every prior state and every tick of `stdin_to_serOut`, a
channel whose mode after the mode update (`u`) is 0 has level 0 and counter 0
at the end of the tick, and a channel whose mode is 1 has level 1 and counter
0.  Stated for LED 0 and for LED 1. -/
theorem off_on_immediacy (K : Tiocm) (cfg : Settings) (buf : List Nat) (okSer okTxd : Bool)
    (data : Nat) (s : SerOutState) :
    let u := serOut_modes (serOut_cmds cfg buf) s
    let r := (stdin_to_serOut K cfg (some buf) okSer okTxd data s).st
    (u.serOutMode0 = 0 → r.serOutStat0 = 0 ∧ r.cntOut0 = 0) ∧
    (u.serOutMode0 = 1 → r.serOutStat0 = 1 ∧ r.cntOut0 = 0) ∧
    (u.serOutMode1 = 0 → r.serOutStat1 = 0 ∧ r.cntOut1 = 0) ∧
    (u.serOutMode1 = 1 → r.serOutStat1 = 1 ∧ r.cntOut1 = 0) := by
  intro u r
  have h := serOut_tick_st K cfg buf okSer okTxd data s
  simp only [] at h
  obtain ⟨-, -, hl0, hl1⟩ := h
  refine ⟨?_, ?_, ?_, ?_⟩
  · intro hm
    rw [(serOut_led_hold cfg.loopsOut _ _ _).1 hm] at hl0
    exact ⟨congrArg Prod.snd hl0, congrArg Prod.fst hl0⟩
  · intro hm
    rw [(serOut_led_hold cfg.loopsOut _ _ _).2 hm] at hl0
    exact ⟨congrArg Prod.snd hl0, congrArg Prod.fst hl0⟩
  · intro hm
    rw [(serOut_led_hold cfg.loopsOut _ _ _).1 hm] at hl1
    exact ⟨congrArg Prod.snd hl1, congrArg Prod.fst hl1⟩
  · intro hm
    rw [(serOut_led_hold cfg.loopsOut _ _ _).2 hm] at hl1
    exact ⟨congrArg Prod.snd hl1, congrArg Prod.fst hl1⟩

/-- Witness of C10: LED 0 blinking in mode 3 at counter 2 is switched on by the
byte 91 (mode 1 for LED 0, mode 9 for LED 1): level 1 and counter 0 in that
tick; the byte 90 switches it off: level 0 and counter 0. -/
theorem off_on_immediacy_witness :
    (serOut_modes (serOut_cmds defaultSettings [91]) mode3Counter2).serOutMode0 = 1 ∧
    ((stdin_to_serOut linuxTiocm defaultSettings (some [91]) true true 0
        mode3Counter2).st.serOutStat0 = 1 ∧
      (stdin_to_serOut linuxTiocm defaultSettings (some [91]) true true 0
        mode3Counter2).st.cntOut0 = 0) ∧
    (serOut_modes (serOut_cmds defaultSettings [90]) mode3Counter2).serOutMode0 = 0 ∧
    ((stdin_to_serOut linuxTiocm defaultSettings (some [90]) true true 0
        mode3Counter2).st.serOutStat0 = 0 ∧
      (stdin_to_serOut linuxTiocm defaultSettings (some [90]) true true 0
        mode3Counter2).st.cntOut0 = 0) :=
  ⟨by decide,
    (off_on_immediacy linuxTiocm defaultSettings [91] true true 0 mode3Counter2).2.1 (by decide),
    by decide,
    (off_on_immediacy linuxTiocm defaultSettings [90] true true 0 mode3Counter2).1 (by decide)⟩

/-! ## Theorems about the output loop and the stored modes -/

set_option maxRecDepth 8000

/-- The stored modes after a tick, by the last effective command bytes. -/
theorem mode_decoding_aux (K : Tiocm) (cfg : Settings) (buf : List Nat) (okSer okTxd : Bool)
    (data : Nat) (s : SerOutState) :
    (stdin_to_serOut K cfg (some buf) okSer okTxd data s).st.serOutMode0
      = (match lastCmd0 (serOut_cmds cfg buf) with
         | some b => ((b % 10 : Nat) : Int)
         | none => s.serOutMode0) ∧
    (stdin_to_serOut K cfg (some buf) okSer okTxd data s).st.serOutMode1
      = (match lastCmd1 (serOut_cmds cfg buf) with
         | some b => (((b / 10) % 10 : Nat) : Int)
         | none => s.serOutMode1) := by
  have h := serOut_tick_st K cfg buf okSer okTxd data s
  have hl := serOut_modes_last (serOut_cmds cfg buf) s
  simp only [] at h
  rw [h.1, h.2.1]
  exact hl

theorem serOut_sync_frame (s : SerOutState) :
    (serOut_sync s).firstRun = s.firstRun ∧ (serOut_sync s).serOutStatOld0 = s.serOutStatOld0 ∧
    (serOut_sync s).serOutStatOld1 = s.serOutStatOld1 := by
  unfold serOut_sync
  simp only []
  split_ifs <;> simp

/-- The statics that the output loop starts from keep `firstRun` and the
levels written last of the statics before the tick. -/
theorem serOut_pre_emit_frame (cfg : Settings) (cmds : List Nat) (s : SerOutState) :
    (serOut_eval cfg.loopsOut (serOut_sync (serOut_modes cmds s))).firstRun = s.firstRun ∧
    (serOut_eval cfg.loopsOut (serOut_sync (serOut_modes cmds s))).serOutStatOld0
      = s.serOutStatOld0 ∧
    (serOut_eval cfg.loopsOut (serOut_sync (serOut_modes cmds s))).serOutStatOld1
      = s.serOutStatOld1 := by
  have h1 := serOut_sync_frame (serOut_modes cmds s)
  have h2 : (serOut_modes cmds s).firstRun = s.firstRun ∧
      (serOut_modes cmds s).serOutStatOld0 = s.serOutStatOld0 ∧
      (serOut_modes cmds s).serOutStatOld1 = s.serOutStatOld1 := by
    rw [serOut_modes_eq]
    exact ⟨rfl, rfl, rfl⟩
  refine ⟨?_, ?_, ?_⟩
  · show (serOut_sync (serOut_modes cmds s)).firstRun = _
    rw [h1.1, h2.1]
  · show (serOut_sync (serOut_modes cmds s)).serOutStatOld0 = _
    rw [h1.2.1, h2.2.1]
  · show (serOut_sync (serOut_modes cmds s)).serOutStatOld1 = _
    rw [h1.2.2, h2.2.2]

/-- The output loop: what is written, and the statics afterwards. -/
theorem serOut_emit_spec (K : Tiocm) (okSer okTxd : Bool) (data : Nat) (x : SerOutState) :
    (serOut_emit K okSer okTxd data x).out
      = (if x.firstRun = true ∨ x.serOutStat0 ≠ x.serOutStatOld0
          then [OutAct.setSerial (led0Word K data x.serOutStat0)] else [])
        ++ (if x.firstRun = true ∨ x.serOutStat1 ≠ x.serOutStatOld1
          then [OutAct.setTxd x.serOutStat1] else []) ∧
    (serOut_emit K okSer okTxd data x).st.serOutStat0 = x.serOutStat0 ∧
    (serOut_emit K okSer okTxd data x).st.serOutStat1 = x.serOutStat1 ∧
    (serOut_emit K okSer okTxd data x).st.serOutStatOld0 = x.serOutStat0 ∧
    (serOut_emit K okSer okTxd data x).st.serOutStatOld1 = x.serOutStat1 ∧
    (serOut_emit K okSer okTxd data x).st.firstRun = false := by
  unfold serOut_emit led0Word
  refine ⟨?_, rfl, rfl, ?_, ?_, rfl⟩
  · simp only [Bool.or_eq_true, decide_eq_true_eq]
  · show (if (x.firstRun || decide (x.serOutStat0 ≠ x.serOutStatOld0)) = true
        then x.serOutStat0 else x.serOutStatOld0) = x.serOutStat0
    by_cases h : x.serOutStat0 = x.serOutStatOld0
    · rw [← h]; simp
    · simp [h]
  · show (if (x.firstRun || decide (x.serOutStat1 ≠ x.serOutStatOld1)) = true
        then x.serOutStat1 else x.serOutStatOld1) = x.serOutStat1
    by_cases h : x.serOutStat1 = x.serOutStatOld1
    · rw [← h]; simp
    · simp [h]

/-- Claim C11: a tick of `stdin_to_serOut` from statics with `firstRun` set (the
first tick) writes each of the two LEDs exactly once, with the level the LED has
at the end of the tick, whatever that level is.  A tick that follows a
completed tick writes LED 0 exactly when its level at the end of the tick
differs from its level at the end of the previous tick, and likewise LED 1, each
at most once.  After every tick `serOutStatOld` equals `serOutStat` for both
LEDs. -/
theorem led_emission (K : Tiocm) (cfg : Settings) (buf : List Nat) (okSer okTxd : Bool)
    (data : Nat) (s : SerOutState) :
    (s.firstRun = true →
      (stdin_to_serOut K cfg (some buf) okSer okTxd data s).out
        = [OutAct.setSerial (led0Word K data
              (stdin_to_serOut K cfg (some buf) okSer okTxd data s).st.serOutStat0),
           OutAct.setTxd (stdin_to_serOut K cfg (some buf) okSer okTxd data s).st.serOutStat1]) ∧
    (∀ (buf' : List Nat) (okSer' okTxd' : Bool) (data' : Nat),
      (stdin_to_serOut K cfg (some buf') okSer' okTxd' data'
          (stdin_to_serOut K cfg (some buf) okSer okTxd data s).st).out
        = (if (stdin_to_serOut K cfg (some buf') okSer' okTxd' data'
                (stdin_to_serOut K cfg (some buf) okSer okTxd data s).st).st.serOutStat0
              ≠ (stdin_to_serOut K cfg (some buf) okSer okTxd data s).st.serOutStat0
           then [OutAct.setSerial (led0Word K data'
              (stdin_to_serOut K cfg (some buf') okSer' okTxd' data'
                (stdin_to_serOut K cfg (some buf) okSer okTxd data s).st).st.serOutStat0)]
           else [])
          ++ (if (stdin_to_serOut K cfg (some buf') okSer' okTxd' data'
                (stdin_to_serOut K cfg (some buf) okSer okTxd data s).st).st.serOutStat1
              ≠ (stdin_to_serOut K cfg (some buf) okSer okTxd data s).st.serOutStat1
           then [OutAct.setTxd (stdin_to_serOut K cfg (some buf') okSer' okTxd' data'
                (stdin_to_serOut K cfg (some buf) okSer okTxd data s).st).st.serOutStat1]
           else [])) ∧
    (stdin_to_serOut K cfg (some buf) okSer okTxd data s).st.serOutStatOld0
      = (stdin_to_serOut K cfg (some buf) okSer okTxd data s).st.serOutStat0 ∧
    (stdin_to_serOut K cfg (some buf) okSer okTxd data s).st.serOutStatOld1
      = (stdin_to_serOut K cfg (some buf) okSer okTxd data s).st.serOutStat1 := by
  have main : ∀ (buf : List Nat) (okSer okTxd : Bool) (data : Nat) (s : SerOutState),
      (stdin_to_serOut K cfg (some buf) okSer okTxd data s).out
        = (if s.firstRun = true ∨
              (stdin_to_serOut K cfg (some buf) okSer okTxd data s).st.serOutStat0
                ≠ s.serOutStatOld0
            then [OutAct.setSerial (led0Word K data
              (stdin_to_serOut K cfg (some buf) okSer okTxd data s).st.serOutStat0)] else [])
          ++ (if s.firstRun = true ∨
              (stdin_to_serOut K cfg (some buf) okSer okTxd data s).st.serOutStat1
                ≠ s.serOutStatOld1
            then [OutAct.setTxd
              (stdin_to_serOut K cfg (some buf) okSer okTxd data s).st.serOutStat1] else []) ∧
      (stdin_to_serOut K cfg (some buf) okSer okTxd data s).st.serOutStatOld0
        = (stdin_to_serOut K cfg (some buf) okSer okTxd data s).st.serOutStat0 ∧
      (stdin_to_serOut K cfg (some buf) okSer okTxd data s).st.serOutStatOld1
        = (stdin_to_serOut K cfg (some buf) okSer okTxd data s).st.serOutStat1 ∧
      (stdin_to_serOut K cfg (some buf) okSer okTxd data s).st.firstRun = false := by
    intro buf okSer okTxd data s
    have he := serOut_emit_spec K okSer okTxd data
      (serOut_eval cfg.loopsOut (serOut_sync (serOut_modes (serOut_cmds cfg buf) s)))
    have hf := serOut_pre_emit_frame cfg (serOut_cmds cfg buf) s
    rw [hf.1, hf.2.1, hf.2.2] at he
    obtain ⟨ho, h0, h1, h2, h3, h4⟩ := he
    have e : stdin_to_serOut K cfg (some buf) okSer okTxd data s
        = serOut_emit K okSer okTxd data
            (serOut_eval cfg.loopsOut (serOut_sync (serOut_modes (serOut_cmds cfg buf) s))) := rfl
    rw [e, h0, h1]
    exact ⟨ho, h2, h3, h4⟩
  obtain ⟨ho, h2, h3, h4⟩ := main buf okSer okTxd data s
  refine ⟨?_, ?_, h2, h3⟩
  · intro hfirst
    rw [ho]
    simp [hfirst]
  · intro buf' okSer' okTxd' data'
    obtain ⟨ho', -, -, -⟩ := main buf' okSer' okTxd' data'
      (stdin_to_serOut K cfg (some buf) okSer okTxd data s).st
    rw [ho', h4, h2, h3]
    simp

/-- Witness of C11: the first tick, without commands, writes both LEDs with
level 0; the next tick switches LED 0 on and writes LED 0 only. -/
theorem led_emission_witness :
    serOutInit.firstRun = true ∧
    (stdin_to_serOut linuxTiocm defaultSettings (some []) true true 0 serOutInit).out
      = [OutAct.setSerial (led0Word linuxTiocm 0 0), OutAct.setTxd 0] ∧
    (stdin_to_serOut linuxTiocm defaultSettings (some [1]) true true 0
      (stdin_to_serOut linuxTiocm defaultSettings (some []) true true 0 serOutInit).st).out
      = [OutAct.setSerial (led0Word linuxTiocm 0 1)] :=
  ⟨by decide,
   by
    have h := (led_emission linuxTiocm defaultSettings [] true true 0 serOutInit).1 (by decide)
    have e0 : (stdin_to_serOut linuxTiocm defaultSettings (some []) true true 0
        serOutInit).st.serOutStat0 = 0 := by decide
    have e1 : (stdin_to_serOut linuxTiocm defaultSettings (some []) true true 0
        serOutInit).st.serOutStat1 = 0 := by decide
    rw [h, e0, e1],
   by
    have h := (led_emission linuxTiocm defaultSettings [] true true 0 serOutInit).2.1 [1] true
      true 0
    have e0 : (stdin_to_serOut linuxTiocm defaultSettings (some [1]) true true 0
        (stdin_to_serOut linuxTiocm defaultSettings (some []) true true 0
          serOutInit).st).st.serOutStat0 = 1 := by decide
    have e1 : (stdin_to_serOut linuxTiocm defaultSettings (some [1]) true true 0
        (stdin_to_serOut linuxTiocm defaultSettings (some []) true true 0
          serOutInit).st).st.serOutStat1 = 0 := by decide
    have f0 : (stdin_to_serOut linuxTiocm defaultSettings (some []) true true 0
        serOutInit).st.serOutStat0 = 0 := by decide
    have f1 : (stdin_to_serOut linuxTiocm defaultSettings (some []) true true 0
        serOutInit).st.serOutStat1 = 0 := by decide
    rw [h, e0, e1, f0, f1]
    simp⟩

theorem serOut_setMode_range (s : SerOutState) (b : Nat)
    (h : 0 ≤ s.serOutMode0 ∧ s.serOutMode0 ≤ 8 ∧ 0 ≤ s.serOutMode1 ∧ s.serOutMode1 ≤ 8) :
    0 ≤ (serOut_setMode s b).serOutMode0 ∧ (serOut_setMode s b).serOutMode0 ≤ 8 ∧
    0 ≤ (serOut_setMode s b).serOutMode1 ∧ (serOut_setMode s b).serOutMode1 ≤ 8 := by
  rw [serOut_setMode_eq]
  simp only []
  have h0 : b % 10 < 10 := Nat.mod_lt _ (by decide)
  have h1 : (b / 10) % 10 < 10 := Nat.mod_lt _ (by decide)
  split_ifs <;> omega

theorem serOut_modes_range (cmds : List Nat) (s : SerOutState)
    (h : 0 ≤ s.serOutMode0 ∧ s.serOutMode0 ≤ 8 ∧ 0 ≤ s.serOutMode1 ∧ s.serOutMode1 ≤ 8) :
    0 ≤ (serOut_modes cmds s).serOutMode0 ∧ (serOut_modes cmds s).serOutMode0 ≤ 8 ∧
    0 ≤ (serOut_modes cmds s).serOutMode1 ∧ (serOut_modes cmds s).serOutMode1 ≤ 8 := by
  induction cmds using List.reverseRecOn with
  | nil => exact h
  | append_singleton cmds b ih =>
    rw [serOut_modes_snoc]
    exact serOut_setMode_range _ b ih

/-- The bounds-checked table read never fails on a table of seven entries, and
gives the result of `serOut_led`. -/
theorem serOut_led_checked_eq (loopsOut : List Int) (hlen : loopsOut.length = 7)
    (mode cnt stat : Int) :
    serOut_led_checked loopsOut mode cnt stat
      = some (serOut_led (fun i => loopsOut.getD i.val 0) mode cnt stat) := by
  unfold serOut_led_checked serOut_led
  simp only []
  by_cases hg : 2 ≤ mode ∧ mode ≤ 8
  · have hn : ¬ (mode - 2 < 0) := by omega
    have hi : (mode - 2).toNat < loopsOut.length := by omega
    rw [if_pos hg, dif_pos hg, if_neg hn, List.getElem?_eq_getElem hi]
    simp only [List.getD_eq_getElem?_getD, List.getElem?_eq_getElem hi, Option.getD_some]
    split_ifs <;> rfl
  · rw [if_neg hg, dif_neg hg]

/-- Claim C12: in every state reachable from the initial statics by ticks of
`stdin_to_serOut` with arbitrary reads, both stored modes lie in [0,8], so 9 is
never stored; the evaluation of either LED with the table as an array of seven
entries and a bounds-checked read has no failing lookup; and whenever the table
is read for a stored mode (the mode is at least 2) the index `mode - 2` lies in
[0,6]. -/
theorem stored_mode_real (K : Tiocm) (cfg : Settings) (s : SerOutState)
    (hr : SerOutReach K cfg s) :
    (0 ≤ s.serOutMode0 ∧ s.serOutMode0 ≤ 8 ∧ 0 ≤ s.serOutMode1 ∧ s.serOutMode1 ≤ 8) ∧
    (∀ (loopsOut : List Int), loopsOut.length = 7 → ∀ cnt stat : Int,
      (serOut_led_checked loopsOut s.serOutMode0 cnt stat).isSome = true ∧
      (serOut_led_checked loopsOut s.serOutMode1 cnt stat).isSome = true) ∧
    (∀ m : Int, (m = s.serOutMode0 ∨ m = s.serOutMode1) → 2 ≤ m →
      0 ≤ m - 2 ∧ m - 2 ≤ 6) := by
  have hrange : 0 ≤ s.serOutMode0 ∧ s.serOutMode0 ≤ 8 ∧ 0 ≤ s.serOutMode1 ∧
      s.serOutMode1 ≤ 8 := by
    induction hr with
    | init => decide
    | tick s rd okSer okTxd data _ ih =>
      cases rd with
      | none => exact ih
      | some buf =>
        have h := serOut_tick_st K cfg buf okSer okTxd data s
        simp only [] at h
        rw [h.1, h.2.1]
        exact serOut_modes_range _ s ih
  refine ⟨hrange, ?_, ?_⟩
  · intro loopsOut hlen cnt stat
    rw [serOut_led_checked_eq loopsOut hlen, serOut_led_checked_eq loopsOut hlen]
    exact ⟨rfl, rfl⟩
  · intro m hm h2
    rcases hm with hm | hm <;> subst hm <;> omega

/-- Witness of C12: after a tick with the command bytes 199 and 38 the stored
modes are 8 and 3. -/
theorem stored_mode_real_witness :
    (stdin_to_serOut linuxTiocm defaultSettings (some [199, 38]) true true 0
      serOutInit).st.serOutMode0 = 8 ∧
    (stdin_to_serOut linuxTiocm defaultSettings (some [199, 38]) true true 0
      serOutInit).st.serOutMode1 = 3 ∧
    (0 ≤ (stdin_to_serOut linuxTiocm defaultSettings (some [199, 38]) true true 0
        serOutInit).st.serOutMode0 ∧
      (stdin_to_serOut linuxTiocm defaultSettings (some [199, 38]) true true 0
        serOutInit).st.serOutMode0 ≤ 8 ∧
      0 ≤ (stdin_to_serOut linuxTiocm defaultSettings (some [199, 38]) true true 0
        serOutInit).st.serOutMode1 ∧
      (stdin_to_serOut linuxTiocm defaultSettings (some [199, 38]) true true 0
        serOutInit).st.serOutMode1 ≤ 8) :=
  ⟨by decide, by decide,
   (stored_mode_real linuxTiocm defaultSettings _
      (SerOutReach.tick serOutInit (some [199, 38]) true true 0 SerOutReach.init)).1⟩

/-! ## Theorems about the configuration (util.c, `init_settings`) -/

theorem init_settings_loopsOut (strtolFn : String → Int × List Char) (dflt : Fin 7 → Int)
    (opts : List (Char × String)) (r : SerialSettings)
    (h : init_settings strtolFn dflt opts = some r) (i : Fin 7) :
    init_loopsOut strtolFn dflt opts i = some (r.cfg.loopsOut i) := by
  unfold init_settings at h
  split_ifs at h with hall
  rw [List.all_eq_true] at hall
  have hi := hall i (List.mem_finRange i)
  obtain ⟨v, hv⟩ := Option.isSome_iff_exists.1 hi
  split at h
  · exact absurd h (by simp)
  · split at h
    · have hr := Option.some.inj h
      rw [← hr]
      simp only [hv, Option.getD_some]
    · exact absurd h (by simp)

/-- Claim C13, as amended: for each of the seven blink-mode options `-2`..`-8`,
when the option is present with a value `str` that `str_to_int` reads as the
`int` `v`, `get_opt_int_between` as called by `init_settings` accepts it if and
only if `0 ≤ v ≤ 1000`; in particular `v = 0` is accepted.  Such a `v` below 0
or above 1000 makes `init_settings` fail, and when `init_settings` succeeds the
threshold of that mode is `v`.  Nothing is said here about a value on which
`str_to_int` fails. -/
theorem blink_threshold_range (strtolFn : String → Int × List Char) (dflt : Fin 7 → Int)
    (opts : List (Char × String)) (i : Fin 7) (str : String) (v : Int)
    (hs : get_opt_str opts (blinkKey i) = some str)
    (hi : str_to_int strtolFn str = some v) :
    (get_opt_int_between strtolFn opts (blinkKey i) 0 1000 (dflt i) = some v
      ↔ 0 ≤ v ∧ v ≤ 1000) ∧
    (get_opt_int_between strtolFn opts (blinkKey i) 0 1000 (dflt i) = none
      ↔ ¬ (0 ≤ v ∧ v ≤ 1000)) ∧
    (¬ (0 ≤ v ∧ v ≤ 1000) → init_settings strtolFn dflt opts = none) ∧
    (∀ r, init_settings strtolFn dflt opts = some r →
      r.cfg.loopsOut i = v ∧ 0 ≤ v ∧ v ≤ 1000) := by
  have hv : get_opt_int strtolFn opts (blinkKey i) = some v := by
    unfold get_opt_int
    rw [hs]
    exact hi
  have hb : get_opt_int_between strtolFn opts (blinkKey i) 0 1000 (dflt i)
      = if v < 0 ∨ v > 1000 then none else some v := by
    unfold get_opt_int_between
    rw [hv]
  have h1 : get_opt_int_between strtolFn opts (blinkKey i) 0 1000 (dflt i) = some v
      ↔ 0 ≤ v ∧ v ≤ 1000 := by
    rw [hb]
    constructor
    · intro h
      split_ifs at h with hc
      omega
    · intro h
      rw [if_neg (by omega)]
  have h2 : get_opt_int_between strtolFn opts (blinkKey i) 0 1000 (dflt i) = none
      ↔ ¬ (0 ≤ v ∧ v ≤ 1000) := by
    rw [hb]
    constructor
    · intro h
      split_ifs at h with hc
      omega
    · intro h
      rw [if_pos (by omega)]
  have h4 : ∀ r, init_settings strtolFn dflt opts = some r →
      r.cfg.loopsOut i = v ∧ 0 ≤ v ∧ v ≤ 1000 := by
    intro r hr
    have hl := init_settings_loopsOut strtolFn dflt opts r hr i
    unfold init_loopsOut at hl
    rw [hb] at hl
    split_ifs at hl with hc
    exact ⟨(Option.some.inj hl).symm, by omega⟩
  refine ⟨h1, h2, ?_, h4⟩
  intro hout
  by_contra hne
  obtain ⟨r, hr⟩ := Option.ne_none_iff_exists'.1 hne
  exact hout (h4 r hr).2

/-- Witness of C13 as amended: `-2 0` is read as 0 and accepted; `-2 1001` is
read as 1001 and makes `init_settings` fail. -/
theorem blink_threshold_range_witness :
    (get_opt_str optsBlinkZero (blinkKey 0) = some "0" ∧ str_to_int strtol "0" = some 0 ∧
      get_opt_int_between strtol optsBlinkZero (blinkKey 0) 0 1000 100 = some 0) ∧
    (get_opt_str optsBlinkHigh (blinkKey 0) = some "1001" ∧
      str_to_int strtol "1001" = some 1001 ∧
      init_settings strtol defaultSettings.loopsOut optsBlinkHigh = none) :=
  ⟨⟨by decide, by decide,
    ((blink_threshold_range strtol defaultSettings.loopsOut optsBlinkZero 0 "0" 0
      (by decide) (by decide)).1).2 (by decide)⟩,
   ⟨by decide, by decide,
    (blink_threshold_range strtol defaultSettings.loopsOut optsBlinkHigh 0 "1001" 1001
      (by decide) (by decide)).2.2.1 (by decide)⟩⟩

/-- Counterexample to C13 as stated: with the options `-p /dev/ttyS0 -2 0` the
value 0 supplied for blink mode 2 is accepted: `init_settings` succeeds and the
threshold of mode 2 is 0. -/
theorem blink_threshold_range_counterexample :
    get_opt_str optsBlinkZero '2' = some "0" ∧
    str_to_int strtol "0" = some 0 ∧
    init_loopsOut strtol defaultSettings.loopsOut optsBlinkZero 0 = some 0 ∧
    (init_settings strtol defaultSettings.loopsOut optsBlinkZero).isSome = true ∧
    (init_settings strtol defaultSettings.loopsOut optsBlinkZero).map
      (fun r => r.cfg.loopsOut 0) = some 0 := by
  decide

/-- Claim C14 evaluated on the code: with the options `-p /dev/ttyS0 -b abc` the
option `-b` is present and `str_to_int` fails on its value, yet
`get_opt_int_between` returns the default 4 and `init_settings` succeeds with
`loopsIn = 4`.  The sibling `get_opt_int_default` fails on the same option. -/
theorem malformed_threshold_accepted :
    get_opt_str optsMalformed 'b' = some "abc" ∧
    str_to_int strtol "abc" = none ∧
    str_to_int strtol "12x" = none ∧
    get_opt_int_between strtol optsMalformed 'b' 1 1000 4 = some 4 ∧
    (init_settings strtol defaultSettings.loopsOut optsMalformed).map
      (fun r => r.cfg.loopsIn) = some 4 ∧
    get_opt_int_default strtol optsMalformed 'b' 4 = none := by
  decide

/-! ## Theorems about `handle_input` -/

/-- The bits of a button byte masked with 0x3f and or-ed with a wheel flag
`2 ^ f`, for `f` equal to 6 or 7. -/
theorem mask_or_flag_testBit (btn f k : Nat) :
    ((btn &&& 0x3f) ||| 2 ^ f).testBit k = ((btn.testBit k && decide (k < 6)) || decide (f = k)) := by
  have h63 : (0x3f : Nat) = 2 ^ 6 - 1 := by decide
  rw [Nat.testBit_or, Nat.testBit_and, h63, Nat.testBit_two_pow_sub_one, Nat.testBit_two_pow]

theorem mask_testBit (btn k : Nat) :
    (btn &&& 0x3f).testBit k = (btn.testBit k && decide (k < 6)) := by
  have h63 : (0x3f : Nat) = 2 ^ 6 - 1 := by decide
  rw [Nat.testBit_and, h63, Nat.testBit_two_pow_sub_one]

/-- The computed byte when a wheel index is set: the masked button byte with
the flag of the wheel byte. -/
theorem mouse_value_wheel (cfg : MouseSettings) (buf : List Nat) (hw : 0 ≤ cfg.wheelIdx) :
    mouse_value cfg buf
      = if buf.getD cfg.wheelIdx.toNat 0 > 127 then
          ((if cfg.buttonIdx ≥ 0 then buf.getD cfg.buttonIdx.toNat 0 else 0) &&& 0x3f) ||| 2 ^ 6
        else if buf.getD cfg.wheelIdx.toNat 0 > 0 then
          ((if cfg.buttonIdx ≥ 0 then buf.getD cfg.buttonIdx.toNat 0 else 0) &&& 0x3f) ||| 2 ^ 7
        else (if cfg.buttonIdx ≥ 0 then buf.getD cfg.buttonIdx.toNat 0 else 0) &&& 0x3f := by
  unfold mouse_value
  simp only [ge_iff_le, hw, if_true, Nat.one_shiftLeft]
  split_ifs <;> first | rfl | (exfalso; omega)

/-- Claim C15: for a complete packet `buf` of `handle_input`, with a wheel index
`≥ 0` the computed byte has bits 0-5 equal to bits 0-5 of the button byte (of 0
when the button index is negative), bit 6 set if and only if the wheel byte is
greater than 127, bit 7 set if and only if the wheel byte is in 1..127, never
both, and no bit above bit 7; with a negative wheel index the byte is the
button byte.  The byte that `handle_input` writes, if any, is this byte. -/
theorem usb_mouse_byte_layout (cfg : MouseSettings) (buf : List Nat) (valueOld : Nat) :
    (0 ≤ cfg.wheelIdx →
      (∀ k, k < 6 → (mouse_value cfg buf).testBit k
        = (if cfg.buttonIdx ≥ 0 then buf.getD cfg.buttonIdx.toNat 0 else 0).testBit k) ∧
      ((mouse_value cfg buf).testBit 6 = true ↔ buf.getD cfg.wheelIdx.toNat 0 > 127) ∧
      ((mouse_value cfg buf).testBit 7 = true ↔
        1 ≤ buf.getD cfg.wheelIdx.toNat 0 ∧ buf.getD cfg.wheelIdx.toNat 0 ≤ 127) ∧
      ¬ ((mouse_value cfg buf).testBit 6 = true ∧ (mouse_value cfg buf).testBit 7 = true) ∧
      (∀ k, 8 ≤ k → (mouse_value cfg buf).testBit k = false)) ∧
    (cfg.wheelIdx < 0 →
      mouse_value cfg buf = if cfg.buttonIdx ≥ 0 then buf.getD cfg.buttonIdx.toNat 0 else 0) ∧
    (∀ b, (handle_input cfg (some (cfg.byteNb, buf)) valueOld).1 = some b →
      b = mouse_value cfg buf) := by
  refine ⟨?_, ?_, ?_⟩
  · intro hw
    have hv := mouse_value_wheel cfg buf hw
    generalize (if cfg.buttonIdx ≥ 0 then buf.getD cfg.buttonIdx.toNat 0 else 0) = btn at hv ⊢
    generalize buf.getD cfg.wheelIdx.toNat 0 = w at hv ⊢
    have hbits : ∀ k, (mouse_value cfg buf).testBit k
        = ((btn.testBit k && decide (k < 6))
            || (decide (k = 6) && decide (w > 127))
            || (decide (k = 7) && decide (1 ≤ w ∧ w ≤ 127))) := by
      intro k
      rw [hv]
      by_cases h1 : w > 127
      · rw [if_pos h1, mask_or_flag_testBit]
        have : ¬ (1 ≤ w ∧ w ≤ 127) := by omega
        simp [h1, this, eq_comm]
      · rw [if_neg h1]
        by_cases h2 : w > 0
        · rw [if_pos h2, mask_or_flag_testBit]
          have : 1 ≤ w ∧ w ≤ 127 := by omega
          simp [h1, this, eq_comm]
        · rw [if_neg h2, mask_testBit]
          have : ¬ (1 ≤ w ∧ w ≤ 127) := by omega
          simp [h1, this]
    refine ⟨?_, ?_, ?_, ?_, ?_⟩
    · intro k hk
      rw [hbits]
      have h6 : ¬ k = 6 := by omega
      have h7 : ¬ k = 7 := by omega
      simp [hk, h6, h7]
    · rw [hbits]; simp
    · rw [hbits]; simp
    · rw [hbits, hbits]
      simp
      omega
    · intro k hk
      rw [hbits]
      have h5 : ¬ k < 6 := by omega
      have h6 : ¬ k = 6 := by omega
      have h7 : ¬ k = 7 := by omega
      simp [h5, h6, h7]
  · intro hw
    unfold mouse_value
    have : ¬ cfg.wheelIdx ≥ 0 := by omega
    simp only [this, if_false]
  · intro b hb
    unfold handle_input at hb
    simp only [ne_eq, not_true_eq_false, if_false] at hb
    split_ifs at hb
    · exact (Option.some.inj hb).symm

/-- Witness of C15: button byte 0xC5 and wheel byte 0xFF (wheel down) with the
default indices give 0x45: bits 0-5 of the buttons, bit 6 set, bit 7 clear. -/
theorem usb_mouse_byte_layout_witness :
    (mouse_value defaultMouse [0xC5, 0, 0, 0xFF]).testBit 6 = true ∧
    (mouse_value defaultMouse [0xC5, 0, 0, 0xFF]).testBit 7 = false ∧
    (mouse_value defaultMouse [0xC5, 0, 0, 0xFF]).testBit 2 = true ∧
    mouse_value defaultMouse [0xC5, 0, 0, 0xFF] = 0x45 :=
  ⟨((usb_mouse_byte_layout defaultMouse [0xC5, 0, 0, 0xFF] 0).1 (by decide)).2.1.2 (by decide),
   by decide,
   by decide, by decide⟩

/-! ## Theorems about the test-mode front-end, the synchronised level and the button sample -/

/-- The front-end of test mode on a read that it accepts. -/
theorem serOut_testmode_accept (buf : List Nat) (h : testmodeAccepts buf) :
    serOut_testmode buf = [decimalValue buf.dropLast] := by
  obtain ⟨hlen, hlast, hdig⟩ := h
  match buf, hlen with
  | [a, b], _ =>
    have hb : b = 10 := by simpa using hlast
    have ha := hdig a (by simp)
    subst hb
    simp [serOut_testmode, decimalValue, ha.1, ha.2]
    omega
  | [a, b, c], _ =>
    have hc : c = 10 := by simpa using hlast
    have ha := hdig a (by simp)
    have hb := hdig b (by simp)
    subst hc
    simp [serOut_testmode, decimalValue, ha.1, ha.2, hb.1, hb.2]
    omega

/-- The front-end of test mode on any other read. -/
theorem serOut_testmode_reject (buf : List Nat) (h : ¬ testmodeAccepts buf) :
    serOut_testmode buf = [] := by
  by_contra hne
  apply h
  unfold serOut_testmode at hne
  simp only [] at hne
  split_ifs at hne with hc hi
  · obtain ⟨h2, h3, hl⟩ := hc
    match buf, h2, h3 with
    | [a, b], _, _ =>
      refine ⟨Or.inl rfl, by simpa using hl, ?_⟩
      intro x hx
      have hx : x = a := by simpa using hx
      subst hx
      by_contra hd
      simp [hd] at hi
    | [a, b, c], _, _ =>
      refine ⟨Or.inr rfl, by simpa using hl, ?_⟩
      intro x hx
      have hx : x = a ∨ x = b := by simpa using hx
      by_contra hd
      rcases hx with hx | hx
      · subst hx
        by_cases hb : 48 ≤ b ∧ b ≤ 57 <;> simp [hd, hb] at hi
      · subst hx
        by_cases ha : 48 ≤ a ∧ a ≤ 57 <;> simp [hd, ha] at hi
    | _ :: _ :: _ :: _ :: _, _, h3 => simp at h3
  · exact (hne rfl).elim
  · exact (hne rfl).elim

/-- Claim C16: in test mode a non-empty read `buf` of `stdin_to_serOut` is
turned into exactly one command byte if and only if it has 2 or 3 bytes, the
last is a line feed and every byte before it is an ASCII digit; the command
byte is then the decimal number written by the digits.  Every other non-empty
read yields no command byte, and both stored modes are as before the tick. -/
theorem testmode_front_end (K : Tiocm) (cfg : Settings) (buf : List Nat) (okSer okTxd : Bool)
    (data : Nat) (s : SerOutState) (ht : cfg.testmode = true) (hne : buf ≠ []) :
    ((serOut_cmds cfg buf).length = 1 ↔ testmodeAccepts buf) ∧
    (testmodeAccepts buf → serOut_cmds cfg buf = [decimalValue buf.dropLast]) ∧
    (¬ testmodeAccepts buf →
      serOut_cmds cfg buf = [] ∧
      (stdin_to_serOut K cfg (some buf) okSer okTxd data s).st.serOutMode0 = s.serOutMode0 ∧
      (stdin_to_serOut K cfg (some buf) okSer okTxd data s).st.serOutMode1 = s.serOutMode1) := by
  have hcmd : serOut_cmds cfg buf = serOut_testmode buf := by
    have hpos : 0 < buf.length := List.length_pos.2 hne
    simp [serOut_cmds, ht, hpos]
  have hacc : testmodeAccepts buf → serOut_cmds cfg buf = [decimalValue buf.dropLast] := by
    intro h
    rw [hcmd]
    exact serOut_testmode_accept buf h
  have hrej : ¬ testmodeAccepts buf → serOut_cmds cfg buf = [] := by
    intro h
    rw [hcmd]
    exact serOut_testmode_reject buf h
  refine ⟨?_, hacc, ?_⟩
  · constructor
    · intro hl
      by_contra h
      rw [hrej h] at hl
      simp at hl
    · intro h
      rw [hacc h]
      rfl
  · intro h
    have hm := mode_decoding_aux K cfg buf okSer okTxd data s
    rw [hrej h] at hm
    exact ⟨hrej h, hm.1, hm.2⟩

/-- Witness of C16: in test mode the read `38\n` becomes the command byte 38,
and the read `3x\n` is ignored. -/
theorem testmode_front_end_witness :
    testmodeAccepts [51, 56, 10] ∧
    serOut_cmds testSettings [51, 56, 10] = [38] ∧
    ¬ testmodeAccepts [51, 120, 10] ∧
    serOut_cmds testSettings [51, 120, 10] = [] :=
  have ha : testmodeAccepts [51, 56, 10] := ⟨Or.inr rfl, rfl, by decide⟩
  have hr : ¬ testmodeAccepts [51, 120, 10] := fun h => absurd (h.2.2 120 (by decide)) (by decide)
  ⟨ha,
   (testmode_front_end linuxTiocm testSettings [51, 56, 10] true true 0 serOutInit rfl
      (by decide)).2.1 ha,
   hr,
   ((testmode_front_end linuxTiocm testSettings [51, 120, 10] true true 0 serOutInit rfl
      (by decide)).2.2 hr).1⟩

/-- Claim C17: in a tick of `stdin_to_serOut` in which both LEDs have the same
blink mode `i + 2` in [2,8] after the mode update, with `T = loopsOut[i]`, the
levels of both LEDs after the tick are the level of LED 1 before the tick when
`min(cntOut0, cntOut1) < T`, and `1 -` that level otherwise.  The level of LED
0 before the tick has no influence: replacing it by any `x` gives the same
levels after the tick. -/
theorem sync_takes_level1 (K : Tiocm) (cfg : Settings) (buf : List Nat) (okSer okTxd : Bool)
    (data : Nat) (s : SerOutState) (i : Fin 7)
    (hm0 : (serOut_modes (serOut_cmds cfg buf) s).serOutMode0 = (i : Nat) + 2)
    (hm1 : (serOut_modes (serOut_cmds cfg buf) s).serOutMode1 = (i : Nat) + 2) :
    (stdin_to_serOut K cfg (some buf) okSer okTxd data s).st.serOutStat0
      = (if min s.cntOut0 s.cntOut1 < cfg.loopsOut i then s.serOutStat1
         else 1 - s.serOutStat1) ∧
    (stdin_to_serOut K cfg (some buf) okSer okTxd data s).st.serOutStat1
      = (if min s.cntOut0 s.cntOut1 < cfg.loopsOut i then s.serOutStat1
         else 1 - s.serOutStat1) ∧
    (∀ x : Int,
      (stdin_to_serOut K cfg (some buf) okSer okTxd data { s with serOutStat0 := x }).st.serOutStat0
        = (stdin_to_serOut K cfg (some buf) okSer okTxd data s).st.serOutStat0 ∧
      (stdin_to_serOut K cfg (some buf) okSer okTxd data { s with serOutStat0 := x }).st.serOutStat1
        = (stdin_to_serOut K cfg (some buf) okSer okTxd data s).st.serOutStat1) := by
  have key : ∀ s : SerOutState,
      (serOut_modes (serOut_cmds cfg buf) s).serOutMode0 = (i : Nat) + 2 →
      (serOut_modes (serOut_cmds cfg buf) s).serOutMode1 = (i : Nat) + 2 →
      (stdin_to_serOut K cfg (some buf) okSer okTxd data s).st.serOutStat0
        = (if min s.cntOut0 s.cntOut1 < cfg.loopsOut i then s.serOutStat1
           else 1 - s.serOutStat1) ∧
      (stdin_to_serOut K cfg (some buf) okSer okTxd data s).st.serOutStat1
        = (if min s.cntOut0 s.cntOut1 < cfg.loopsOut i then s.serOutStat1
           else 1 - s.serOutStat1) := by
    intro s hm0 hm1
    have h := serOut_tick_st K cfg buf okSer okTxd data s
    simp only [] at h
    obtain ⟨-, -, hl0, hl1⟩ := h
    have hf := serOut_modes_frame (serOut_cmds cfg buf) s
    have hs := (serOut_sync_cnt (serOut_modes (serOut_cmds cfg buf) s)).1 (by rw [hm0, hm1])
    rw [hs.1, hs.2.2.1, hm0, hf.1, hf.2.1, hf.2.2.2, serOut_led_blink] at hl0
    rw [hs.2.1, hs.2.2.2, hm1, hf.1, hf.2.1, hf.2.2.2, serOut_led_blink] at hl1
    constructor
    · refine (congrArg Prod.snd hl0).trans ?_
      split_ifs <;> rfl
    · refine (congrArg Prod.snd hl1).trans ?_
      split_ifs <;> rfl
  have hk := key s hm0 hm1
  refine ⟨hk.1, hk.2, ?_⟩
  intro x
  have hmx := serOut_modes_last (serOut_cmds cfg buf) { s with serOutStat0 := x }
  have hms := serOut_modes_last (serOut_cmds cfg buf) s
  have hkx := key { s with serOutStat0 := x }
    (by rw [hmx.1, ← hms.1]; exact hm0) (by rw [hmx.2, ← hms.2]; exact hm1)
  exact ⟨by rw [hkx.1, hk.1], by rw [hkx.2, hk.2]⟩

/-- Witness of C17: LED 0 in mode 3 with level 1, LED 1 set to mode 3 by the
byte 39 with level 0: both levels are 0 after the tick. -/
theorem sync_takes_level1_witness :
    (stdin_to_serOut linuxTiocm defaultSettings (some [39]) true true 0
      { mode3Counter2 with serOutStat0 := 1 }).st.serOutStat0 = 0 ∧
    (stdin_to_serOut linuxTiocm defaultSettings (some [39]) true true 0
      { mode3Counter2 with serOutStat0 := 1 }).st.serOutStat1 = 0 :=
  ⟨by
    have h := (sync_takes_level1 linuxTiocm defaultSettings [39] true true 0
      { mode3Counter2 with serOutStat0 := 1 } 1 (by decide) (by decide)).1
    rw [h]
    decide,
   by
    have h := (sync_takes_level1 linuxTiocm defaultSettings [39] true true 0
      { mode3Counter2 with serOutStat0 := 1 } 1 (by decide) (by decide)).2.1
    rw [h]
    decide⟩

theorem serIn_val_eq (K : Tiocm) (data : Nat) :
    serIn_val K data
      = lineBits (decide (data &&& K.RNG ≠ 0)) (decide (data &&& K.CTS ≠ 0))
          (decide (data &&& K.DSR ≠ 0)) (decide (data &&& K.CD ≠ 0))
          (decide (data &&& K.DTR ≠ 0)) := by
  have hr : List.range 4 = [0, 1, 2, 3] := by decide
  unfold serIn_val pins lineBits
  simp only [hr, List.foldl_cons, List.foldl_nil, List.getD_cons_zero, List.getD_cons_succ,
    decide_eq_true_eq]
  split_ifs <;> rfl

theorem lineBits_table :
    ∀ rng cts dsr cd dtr : Bool,
      lineBits rng cts dsr cd dtr < 16 ∧
      (lineBits rng cts dsr cd dtr).testBit 0 = xor rng dtr ∧
      (lineBits rng cts dsr cd dtr).testBit 1 = xor cts dtr ∧
      (lineBits rng cts dsr cd dtr).testBit 2 = xor dsr dtr ∧
      (lineBits rng cts dsr cd dtr).testBit 3 = xor cd dtr := by
  decide

theorem xor_decide_iff (p q : Prop) [Decidable p] [Decidable q] :
    xor (decide p) (decide q) = true ↔ (p ∧ ¬ q) ∨ (¬ p ∧ q) := by
  by_cases hp : p <;> by_cases hq : q <;> simp [hp, hq]

/-- Claim C18: for every modem status word `data` the sample that
`serIn_to_stdout` debounces is less than 16; its bit 0, 1, 2, 3 is set if and
only if exactly one of `the line RNG, CTS, DSR, CD is asserted` and `DTR is
asserted` holds; the bits from 4 on are 0; and every byte that
`serIn_to_stdout` emits is less than 16. -/
theorem button_sample_layout (K : Tiocm) (cfg : Settings) (wrOk : Bool) (data : Nat)
    (s : SerInState) :
    serIn_val K data < 16 ∧
    ((serIn_val K data).testBit 0 = true ↔
      (data &&& K.RNG ≠ 0 ∧ ¬ data &&& K.DTR ≠ 0) ∨ (¬ data &&& K.RNG ≠ 0 ∧ data &&& K.DTR ≠ 0)) ∧
    ((serIn_val K data).testBit 1 = true ↔
      (data &&& K.CTS ≠ 0 ∧ ¬ data &&& K.DTR ≠ 0) ∨ (¬ data &&& K.CTS ≠ 0 ∧ data &&& K.DTR ≠ 0)) ∧
    ((serIn_val K data).testBit 2 = true ↔
      (data &&& K.DSR ≠ 0 ∧ ¬ data &&& K.DTR ≠ 0) ∨ (¬ data &&& K.DSR ≠ 0 ∧ data &&& K.DTR ≠ 0)) ∧
    ((serIn_val K data).testBit 3 = true ↔
      (data &&& K.CD ≠ 0 ∧ ¬ data &&& K.DTR ≠ 0) ∨ (¬ data &&& K.CD ≠ 0 ∧ data &&& K.DTR ≠ 0)) ∧
    (∀ i, 4 ≤ i → (serIn_val K data).testBit i = false) ∧
    (∀ b, (serIn_to_stdout K cfg wrOk data s).out = some b → b < 16) := by
  have ht := lineBits_table (decide (data &&& K.RNG ≠ 0)) (decide (data &&& K.CTS ≠ 0))
    (decide (data &&& K.DSR ≠ 0)) (decide (data &&& K.CD ≠ 0)) (decide (data &&& K.DTR ≠ 0))
  rw [← serIn_val_eq] at ht
  obtain ⟨hlt, h0, h1, h2, h3⟩ := ht
  refine ⟨hlt, ?_, ?_, ?_, ?_, ?_, ?_⟩
  · rw [h0]; exact xor_decide_iff _ _
  · rw [h1]; exact xor_decide_iff _ _
  · rw [h2]; exact xor_decide_iff _ _
  · rw [h3]; exact xor_decide_iff _ _
  · intro i hi
    apply Nat.testBit_lt_two_pow
    calc serIn_val K data < 2 ^ 4 := hlt
      _ ≤ 2 ^ i := Nat.pow_le_pow_right (by decide) hi
  · intro b hb
    have h := (serIn_emit_cond K cfg wrOk data s (by rw [hb]; simp)).2.2.2
    rw [hb] at h
    rw [Option.some.inj h]
    exact hlt

/-- Witness of C18: with RNG and DTR asserted (status word 0x82) bit 0 is clear
and the sample is 14; no bit from 4 on is set. -/
theorem button_sample_layout_witness :
    serIn_val linuxTiocm 0x82 = 14 ∧ (serIn_val linuxTiocm 0x82).testBit 5 = false :=
  ⟨by decide,
   (button_sample_layout linuxTiocm defaultSettings true 0x82 serInInit).2.2.2.2.2.1 5
     (by decide)⟩

end CtrlSerial
